import Mathlib

/-!
# ConversorTem: the Alexa temperature-conversion skill (`lambda/index.js`)

A shallow embedding of `lambda/index.js` and of the parts of its runtime that
the handlers reach:

* JavaScript numbers: IEEE-754 binary64 values with round-to-nearest-even
  arithmetic, `parseFloat`, `Number.prototype.toFixed` and `Number::toString`
  (ECMA-262), modelled exactly over `Nat` and `Int`;
* the i18next translator `handlerInput.t` (language hierarchy, key lookup,
  `{{name}}` interpolation with HTML escaping, key returned when missing);
* the ask-sdk-core request envelope accessors, response builder and
  first-match request dispatch with its error handler.

Strings that are built character by character are `List Char`; they are packed
into `String` at the response.
-/

namespace ConversorTem

/-! ## JavaScript numbers -/

/-- A JavaScript Number: `nan`, a signed infinity, or the finite binary64 value
`± m * 2 ^ e`.  Values built by the operations below are canonical:
`m < 2 ^ 53`, `-1074 ≤ e ≤ 971`, and `2 ^ 52 ≤ m` unless `e = -1074`
(subnormals and the two zeros). -/
inductive JSNumber where
  | nan : JSNumber
  | inf (neg : Bool) : JSNumber
  | fin (neg : Bool) (m : Nat) (e : Int) : JSNumber
  deriving DecidableEq, Repr

/-- Bit length with explicit fuel: `bitLenAux n n` is the number of binary
digits of `n`. -/
def bitLenAux : Nat → Nat → Nat
  | 0, _ => 0
  | fuel + 1, n => if n = 0 then 0 else bitLenAux fuel (n / 2) + 1

/-- Number of binary digits of `n` (`0` for `0`). -/
def bitLen (n : Nat) : Nat := bitLenAux n n

/-- The fraction `(p / q) / 2 ^ e` as a numerator and a denominator. -/
def scale (p q : Nat) : Int → Nat × Nat
  | Int.ofNat k => (p, q * 2 ^ k)
  | Int.negSucc k => (p * 2 ^ (k + 1), q)

/-- The binary exponent at which the positive rational `p / q` is rounded: the
`e` with `2 ^ 52 ≤ (p / q) / 2 ^ e < 2 ^ 53`, and `-1074` when that `e` is
below the exponent of the subnormals. -/
def roundingExponent (p q : Nat) : Int :=
  let eHi : Int := (bitLen p : Int) - (bitLen q : Int) - 52
  let e1 : Int := if (scale p q eHi).1 < (scale p q eHi).2 * 2 ^ 52 then eHi - 1 else eHi
  if e1 < -1074 then -1074 else e1

/-- The integer nearest to `(p / q) / 2 ^ e`, the even one on a tie. -/
def roundedSignificand (p q : Nat) (e : Int) : Nat :=
  let nd := scale p q e
  let m0 := nd.1 / nd.2
  let r := nd.1 % nd.2
  if nd.2 < 2 * r ∨ (2 * r = nd.2 ∧ m0 % 2 = 1) then m0 + 1 else m0

/-- The Number `± m * 2 ^ e` for a significand `m ≤ 2 ^ 53`: a significand of
`2 ^ 53` moves to the next exponent, and an exponent above `971` is an
overflow to the infinity of that sign. -/
def packNumber (neg : Bool) (m : Nat) (e : Int) : JSNumber :=
  if m = 2 ^ 53 then (if 971 < e + 1 then JSNumber.inf neg else JSNumber.fin neg (2 ^ 52) (e + 1))
  else if 971 < e then JSNumber.inf neg else JSNumber.fin neg m e

/-- Round the positive rational `p / q` to the nearest binary64 value, ties to
even, with sign `neg`; overflow gives an infinity, underflow a subnormal or
zero. -/
def roundPos (neg : Bool) (p q : Nat) : JSNumber :=
  packNumber neg (roundedSignificand p q (roundingExponent p q)) (roundingExponent p q)

/-- Round `± p / q` (with `p = 0` giving the zero of that sign). -/
def roundFrac (neg : Bool) (p q : Nat) : JSNumber :=
  if p = 0 then JSNumber.fin neg 0 (-1074) else roundPos neg p q

/-- Round `± p * 2 ^ e`. -/
def roundDyadic (neg : Bool) (p : Nat) (e : Int) : JSNumber :=
  roundFrac neg (scale p 1 (-e)).1 (scale p 1 (-e)).2

/-- The Number value of a natural-number literal of the source. -/
def JSNumber.ofNat (n : Nat) : JSNumber := roundDyadic false n 0

/-- Unary minus. -/
def JSNumber.neg : JSNumber → JSNumber
  | JSNumber.nan => JSNumber.nan
  | JSNumber.inf s => JSNumber.inf (!s)
  | JSNumber.fin s m e => JSNumber.fin (!s) m e

/-- JavaScript `x + y` on Numbers. -/
def JSNumber.add : JSNumber → JSNumber → JSNumber
  | JSNumber.nan, _ => JSNumber.nan
  | _, JSNumber.nan => JSNumber.nan
  | JSNumber.inf s, JSNumber.inf t => if s = t then JSNumber.inf s else JSNumber.nan
  | JSNumber.inf s, JSNumber.fin _ _ _ => JSNumber.inf s
  | JSNumber.fin _ _ _, JSNumber.inf t => JSNumber.inf t
  | JSNumber.fin s m e, JSNumber.fin t n f =>
    let g : Int := if e ≤ f then e else f
    let a : Int := (if s then -1 else 1) * ((m * 2 ^ (e - g).toNat : Nat) : Int)
    let b : Int := (if t then -1 else 1) * ((n * 2 ^ (f - g).toNat : Nat) : Int)
    let c : Int := a + b
    if c = 0 then JSNumber.fin (s && t) 0 (-1074)
    else roundDyadic (decide (c < 0)) c.natAbs g

/-- JavaScript `x - y` on Numbers. -/
def JSNumber.sub (x y : JSNumber) : JSNumber := JSNumber.add x (JSNumber.neg y)

/-- JavaScript `x * y` on Numbers. -/
def JSNumber.mul : JSNumber → JSNumber → JSNumber
  | JSNumber.nan, _ => JSNumber.nan
  | _, JSNumber.nan => JSNumber.nan
  | JSNumber.inf s, JSNumber.inf t => JSNumber.inf (xor s t)
  | JSNumber.inf s, JSNumber.fin t n _ => if n = 0 then JSNumber.nan else JSNumber.inf (xor s t)
  | JSNumber.fin s m _, JSNumber.inf t => if m = 0 then JSNumber.nan else JSNumber.inf (xor s t)
  | JSNumber.fin s m e, JSNumber.fin t n f => roundDyadic (xor s t) (m * n) (e + f)

/-- JavaScript `x / y` on Numbers. -/
def JSNumber.div : JSNumber → JSNumber → JSNumber
  | JSNumber.nan, _ => JSNumber.nan
  | _, JSNumber.nan => JSNumber.nan
  | JSNumber.inf _, JSNumber.inf _ => JSNumber.nan
  | JSNumber.inf s, JSNumber.fin t _ _ => JSNumber.inf (xor s t)
  | JSNumber.fin s _ _, JSNumber.inf t => JSNumber.fin (xor s t) 0 (-1074)
  | JSNumber.fin s m e, JSNumber.fin t n f =>
    if n = 0 then (if m = 0 then JSNumber.nan else JSNumber.inf (xor s t))
    else roundFrac (xor s t) (scale m n (f - e)).1 (scale m n (f - e)).2

/-- The exact value of a finite Number as a rational (`0` for `nan` and the
infinities, which have no value). -/
def JSNumber.toRat : JSNumber → ℚ
  | JSNumber.fin s m e => (if s then -1 else 1) * (m : ℚ) * (2 : ℚ) ^ e
  | _ => 0

/-- Finite Numbers. -/
def JSNumber.isFinite : JSNumber → Bool
  | JSNumber.fin _ _ _ => true
  | _ => false

/-- The test `Number.isNaN`. -/
def JSNumber.isNaN : JSNumber → Bool
  | JSNumber.nan => true
  | _ => false

/-! ### Decimal digits -/

/-- The character of the decimal digit `d`. -/
def digitChar (d : Nat) : Char := Char.ofNat (48 + d)

/-- Decimal digits of `n`, most significant first, pushed in front of `acc`. -/
def decDigitsAux : Nat → Nat → List Char → List Char
  | 0, _, acc => acc
  | fuel + 1, n, acc =>
    if n < 10 then digitChar n :: acc
    else decDigitsAux fuel (n / 10) (digitChar (n % 10) :: acc)

/-- The decimal representation of `n` (`"0"` for `0`). -/
def decDigits (n : Nat) : List Char := decDigitsAux (n + 1) n []

/-- Decimal digit characters `0` to `9`. -/
def isDecimalDigit (c : Char) : Bool := decide (48 ≤ c.toNat) && decide (c.toNat ≤ 57)

/-- The mathematical value of a string of decimal digits. -/
def digitsValue (ds : List Char) : Nat := ds.foldl (fun a c => 10 * a + (c.toNat - 48)) 0

/-! ### `parseFloat` -/

/-- The characters `StrWhiteSpaceChar` of ECMA-262 (white space and line
terminators) that `parseFloat` strips from the front of its argument. -/
def isStrWhiteSpaceChar (c : Char) : Bool :=
  decide (c.toNat = 0x09) || decide (c.toNat = 0x0A) || decide (c.toNat = 0x0B) ||
  decide (c.toNat = 0x0C) || decide (c.toNat = 0x0D) || decide (c.toNat = 0x20) ||
  decide (c.toNat = 0xA0) || decide (c.toNat = 0x1680) ||
  (decide (0x2000 ≤ c.toNat) && decide (c.toNat ≤ 0x200A)) ||
  decide (c.toNat = 0x2028) || decide (c.toNat = 0x2029) || decide (c.toNat = 0x202F) ||
  decide (c.toNat = 0x205F) || decide (c.toNat = 0x3000) || decide (c.toNat = 0xFEFF)

/-- The Number nearest to `± n * 10 ^ k`. -/
def roundDecimal (neg : Bool) (n : Nat) : Int → JSNumber
  | Int.ofNat k => roundFrac neg (n * 10 ^ k) 1
  | Int.negSucc k => roundFrac neg n (10 ^ (k + 1))

/-- The value of the `ExponentPart` at the front of `cs`, `0` when `cs` does
not start with a well-formed one (it is then not part of the literal). -/
def exponentPart : List Char → Int
  | [] => 0
  | c :: rest =>
    if c = 'e' ∨ c = 'E' then
      match rest with
      | [] => 0
      | d :: ds =>
        if d = '+' then (digitsValue (ds.takeWhile isDecimalDigit) : Int)
        else if d = '-' then -(digitsValue (ds.takeWhile isDecimalDigit) : Int)
        else (digitsValue (rest.takeWhile isDecimalDigit) : Int)
    else 0

/-- The Number of the longest prefix of `cs` that is a
`StrUnsignedDecimalLiteral`, with sign `neg`; `nan` when there is none. -/
def strUnsignedDecimalLiteral (neg : Bool) (cs : List Char) : JSNumber :=
  if "Infinity".data.isPrefixOf cs then JSNumber.inf neg
  else
    match cs.dropWhile isDecimalDigit with
    | [] => if cs.takeWhile isDecimalDigit = [] then JSNumber.nan
            else roundDecimal neg (digitsValue (cs.takeWhile isDecimalDigit)) 0
    | c :: r2 =>
      if c = '.' then
        if cs.takeWhile isDecimalDigit = [] ∧ r2.takeWhile isDecimalDigit = [] then JSNumber.nan
        else roundDecimal neg
          (digitsValue (cs.takeWhile isDecimalDigit ++ r2.takeWhile isDecimalDigit))
          (exponentPart (r2.dropWhile isDecimalDigit) - ((r2.takeWhile isDecimalDigit).length : Int))
      else if cs.takeWhile isDecimalDigit = [] then JSNumber.nan
      else roundDecimal neg (digitsValue (cs.takeWhile isDecimalDigit)) (exponentPart (c :: r2))

/-- The function `parseFloat` on the characters of a string: leading white
space is dropped, then the longest prefix that is a `StrDecimalLiteral` is
converted; `nan` when no prefix is one. -/
def parseFloatChars (cs : List Char) : JSNumber :=
  match cs.dropWhile isStrWhiteSpaceChar with
  | [] => JSNumber.nan
  | c :: r =>
    if c = '+' then strUnsignedDecimalLiteral false r
    else if c = '-' then strUnsignedDecimalLiteral true r
    else strUnsignedDecimalLiteral false (c :: r)

/-! ### `Number::toString` and `Number.prototype.toFixed` -/

/-- The least `j` from the start value on with `q ≤ p * 10 ^ j`, searched with
fuel. -/
def firstScale (p q : Nat) : Nat → Nat → Nat
  | 0, j => j
  | fuel + 1, j => if q ≤ p * 10 ^ j then j else firstScale p q fuel (j + 1)

/-- The decimal exponent `n` of the positive rational `p / q`:
`10 ^ (n - 1) ≤ p / q < 10 ^ n`. -/
def decExponent (p q : Nat) : Int :=
  if q ≤ p then ((decDigits (p / q)).length : Int)
  else 1 - (firstScale p q 400 1 : Int)

/-- The fraction `(p / q) / 10 ^ t` as a numerator and a denominator. -/
def scale10 (p q : Nat) : Int → Nat × Nat
  | Int.ofNat k => (p, q * 10 ^ k)
  | Int.negSucc k => (p * 10 ^ (k + 1), q)

/-- For the positive finite Number `x = p / q` with decimal exponent `n`: the
integer `s` next to `x / 10 ^ (n - k)` for which `s * 10 ^ (n - k)` converts
back to `x`, the closer one when both neighbours do and the even one on a tie;
`none` when neither does. -/
def digitCandidate (x : JSNumber) (p q : Nat) (n : Int) (k : Nat) : Option Nat :=
  let nd := scale10 p q (n - k)
  let lo := nd.1 / nd.2
  let r := nd.1 % nd.2
  let okLo : Bool := decide (roundDecimal false lo (n - k) = x)
  let okHi : Bool := decide (roundDecimal false (lo + 1) (n - k) = x)
  if okLo && okHi then
    (if 2 * r < nd.2 then some lo else if nd.2 < 2 * r then some (lo + 1)
     else if lo % 2 = 0 then some lo else some (lo + 1))
  else if okLo then some lo
  else if okHi then some (lo + 1)
  else none

/-- The least number of digits `k`, from the start value on, that has a
candidate, with that candidate. -/
def shortestDigits (x : JSNumber) (p q : Nat) (n : Int) : Nat → Nat → Option (Nat × Nat)
  | 0, _ => none
  | fuel + 1, k =>
    match digitCandidate x p q n k with
    | some s => some (s, k)
    | none => shortestDigits x p q n fuel (k + 1)

/-- The text of `Number::toString` from the digits `ds` of `s` and the
decimal exponent `n` (the value is `0.ds * 10 ^ n`). -/
def formatDigits (ds : List Char) (n : Int) : List Char :=
  if (ds.length : Int) ≤ n ∧ n ≤ 21 then ds ++ List.replicate (n.toNat - ds.length) '0'
  else if 0 < n ∧ n ≤ 21 then ds.take n.toNat ++ '.' :: ds.drop n.toNat
  else if -6 < n ∧ n ≤ 0 then '0' :: '.' :: (List.replicate (-n).toNat '0' ++ ds)
  else
    match ds with
    | [] => []
    | [d] => d :: 'e' :: (if n - 1 < 0 then '-' else '+') :: decDigits (n - 1).natAbs
    | d :: rest =>
      d :: '.' :: (rest ++ 'e' :: (if n - 1 < 0 then '-' else '+') :: decDigits (n - 1).natAbs)

/-- The text of `Number::toString` for the positive finite Number `m * 2 ^ e`:
the shortest digit string that converts back to it. -/
def positiveToString (m : Nat) (e : Int) : List Char :=
  let p := (scale m 1 (-e)).1
  let q := (scale m 1 (-e)).2
  let n := decExponent p q
  match shortestDigits (JSNumber.fin false m e) p q n 17 1 with
  | some (s, k) =>
    if s = 10 ^ k then formatDigits (decDigits (10 ^ (k - 1))) (n + 1)
    else formatDigits (decDigits s) n
  | none => formatDigits (decDigits ((scale10 p q (n - 17)).1 / (scale10 p q (n - 17)).2)) n

/-- The abstract operation `Number::toString(x)` with radix 10, which is also
what `String(x)` and string concatenation apply to a Number. -/
def JSNumber.toString : JSNumber → List Char
  | JSNumber.nan => "NaN".data
  | JSNumber.inf s => if s then "-Infinity".data else "Infinity".data
  | JSNumber.fin s m e =>
    if m = 0 then "0".data
    else if s then '-' :: positiveToString m e
    else positiveToString m e

/-- The digits of `Number.prototype.toFixed(f)` for `n`, the integer nearest to
`x * 10 ^ f`: left-padded with zeros to `f + 1` digits, with a point before the
last `f` digits when `f ≠ 0`. -/
def fixedDigits (n f : Nat) : List Char :=
  let m := decDigits n
  let mp := if m.length ≤ f then List.replicate (f + 1 - m.length) '0' ++ m else m
  if f = 0 then mp else mp.take (mp.length - f) ++ '.' :: mp.drop (mp.length - f)

/-- The method `Number.prototype.toFixed(f)` for `0 ≤ f ≤ 100`. -/
def JSNumber.toFixed (x : JSNumber) (f : Nat) : List Char :=
  match x with
  | JSNumber.fin s m e =>
    let p := (scale m 1 (-e)).1
    let q := (scale m 1 (-e)).2
    if 10 ^ 21 * q ≤ p then JSNumber.toString x
    else if s ∧ m ≠ 0 then '-' :: fixedDigits ((2 * p * 10 ^ f + q) / (2 * q)) f
    else fixedDigits ((2 * p * 10 ^ f + q) / (2 * q)) f
  | _ => JSNumber.toString x

instance : OfNat JSNumber n := ⟨JSNumber.ofNat n⟩
instance : Add JSNumber := ⟨JSNumber.add⟩
instance : Sub JSNumber := ⟨JSNumber.sub⟩
instance : Mul JSNumber := ⟨JSNumber.mul⟩
instance : Div JSNumber := ⟨JSNumber.div⟩

/-- The JavaScript values a slot lookup can produce. -/
inductive JSValue where
  | undefined : JSValue
  | null : JSValue
  | string (s : String) : JSValue
  deriving DecidableEq, Repr

/-- The abstract operation `ToString` on those values. -/
def JSValue.toChars : JSValue → List Char
  | JSValue.undefined => "undefined".data
  | JSValue.null => "null".data
  | JSValue.string s => s.data

/-- The global function `parseFloat(v)`: `ToString(v)`, then the literal at
its front. -/
def parseFloat (v : JSValue) : JSNumber := parseFloatChars v.toChars

/-! ## The translation catalog and the i18next translator -/

/-- The catalog `languageStrings`: for each language its `translation`
namespace, message key to template. -/
def languageStrings : List (String × List (String × String)) :=
  [ ("en",
      [ ("WELCOME_MESSAGE", "Welcome to Agus. Which conversion would you like to try?"),
        ("HELP_MESSAGE", "You can convert degrees Fahrenheit to Celsius."),
        ("GOODBYE_MESSAGE", "Goodbye!"),
        ("FALLBACK_MESSAGE", "Sorry, I don\x27t know about that. Please try again."),
        ("ERROR_MESSAGE", "Sorry, I had trouble doing what you asked. Please try again."),
        ("CELSIUS_CONVERSION",
          "\x7b\x7bdegreesFarent\x7d\x7d Fahrenheit is equal to \x7b\x7bdegreesCent\x7d\x7d degrees Celsius.") ]),
    ("es",
      [ ("WELCOME_MESSAGE", "Bienvenido al conversor . ¿Qué conversión te gustaría probar?"),
        ("HELP_MESSAGE", "Puedes convertir grados Centigrados a Fahrenheit"),
        ("GOODBYE_MESSAGE", "¡Adiós!"),
        ("FALLBACK_MESSAGE", "Lo siento, no sé sobre eso. Por favor, inténtalo de nuevo."),
        ("ERROR_MESSAGE",
          "Lo siento, tuve problemas para hacer lo que pediste. Por favor, inténtalo de nuevo."),
        ("FAHRENHEIT_CONVERSION",
          "\x7b\x7bdegreesCent\x7d\x7d Centigrados son \x7b\x7bdegreesFarent\x7d\x7d grados Fahrenheit.") ]) ]

/-- An interpolation argument of `t`: a Number or a string. -/
inductive InterpValue where
  | number (x : JSNumber) : InterpValue
  | string (s : List Char) : InterpValue

/-- The conversion `makeString` that i18next applies to a value that is not a
string already. -/
def InterpValue.makeString : InterpValue → List Char
  | InterpValue.number x => x.toString
  | InterpValue.string s => s

/-- The replacement of one character by i18next `escape`. -/
def escapeChar (c : Char) : List Char :=
  if c = '&' then "&amp;".data
  else if c = '<' then "&lt;".data
  else if c = '>' then "&gt;".data
  else if c = Char.ofNat 34 then "&quot;".data
  else if c = Char.ofNat 39 then "&#39;".data
  else if c = '/' then "&#x2F;".data
  else [c]

/-- The function `escape` of i18next, applied to every interpolated value
(`interpolation.escapeValue` is left at its default, `true`). -/
def escape : List Char → List Char
  | [] => []
  | c :: cs => escapeChar c ++ escape cs

/-- Line terminators, which `.` in the interpolation pattern does not match. -/
def isLineTerminator (c : Char) : Bool :=
  decide (c.toNat = 0x0A) || decide (c.toNat = 0x0D) || decide (c.toNat = 0x2028) ||
  decide (c.toNat = 0x2029)

/-- The text up to the first closing pair of braces, and the text after it. -/
def untilClose : List Char → Option (List Char × List Char)
  | [] => none
  | c :: cs =>
    if c = '}' ∧ cs.head? = some '}' then some ([], cs.tail)
    else if isLineTerminator c then none
    else (untilClose cs).map (fun ar => (c :: ar.1, ar.2))

/-- The match of the pattern `(.+?)` followed by the closing braces: at least
one character, then as few as possible. -/
def placeholderBody : List Char → Option (List Char × List Char)
  | [] => none
  | c :: cs =>
    if isLineTerminator c then none
    else (untilClose cs).map (fun ar => (c :: ar.1, ar.2))

/-- The method `String.prototype.trim`. -/
def trim (cs : List Char) : List Char :=
  ((cs.dropWhile isStrWhiteSpaceChar).reverse.dropWhile isStrWhiteSpaceChar).reverse

/-- The interpolation of i18next: every placeholder, a name between double
braces, is replaced by the escaped text of the argument of that name, or by
nothing when there is no such argument; the inserted text is not scanned
again. -/
def interpolateAux (data : List (String × InterpValue)) : Nat → List Char → List Char
  | 0, cs => cs
  | _ + 1, [] => []
  | fuel + 1, c :: cs =>
    if c = '{' ∧ cs.head? = some '{' then
      match placeholderBody cs.tail with
      | some (name, rest) =>
        (match data.lookup (String.mk (trim name)) with
          | some v => escape v.makeString
          | none => []) ++ interpolateAux data fuel rest
      | none => c :: interpolateAux data fuel cs
    else c :: interpolateAux data fuel cs

/-- Interpolation of a whole template. -/
def interpolate (tpl : String) (data : List (String × InterpValue)) : String :=
  String.mk (interpolateAux data (tpl.length + 1) tpl.data)

/-- The method `getLanguagePartFromCode` of i18next: the code up to its first
hyphen. -/
def getLanguagePartFromCode (code : String) : String :=
  String.mk (code.data.takeWhile (fun c => c != '-'))

/-- The language codes i18next tries for `code`: the code itself, its language
part, then the fallback language, which is i18next's default `dev` as `init`
sets none. -/
def toResolveHierarchy (code : String) : List String :=
  [code, getLanguagePartFromCode code, "dev"]

/-- The template of `key` in the `translation` namespace of language `lng`. -/
def getResource (lng key : String) : Option String :=
  (languageStrings.lookup lng).bind (fun ns => ns.lookup key)

/-- The first template found for `key` along the hierarchy of `lng`. -/
def resolve (lng key : String) : Option String :=
  (toResolveHierarchy lng).findSome? (fun code => getResource code key)

/-- The translator `localizationClient.t(key, data)` of a client cloned with
language `lng`: the interpolated template, or the interpolated key itself when
no language of the hierarchy has the key. -/
def translate (lng key : String) (data : List (String × InterpValue)) : String :=
  match resolve lng key with
  | some tpl => interpolate tpl data
  | none => interpolate key data

/-! ## The request envelope, the response builder and the handlers -/

/-- An error thrown while a request is handled. -/
structure JSError where
  message : String
  deriving DecidableEq, Repr

/-- The fields of the request envelope that the skill reads: `request.type`,
`request.locale` and, for an `IntentRequest`, `request.intent.name` and
`request.intent.slots` (slot name to `slot.value`; `none` when the intent has
no `slots` object).  The intent fields are read only behind a test that the
type is `IntentRequest`. -/
structure RequestEnvelope where
  type : String
  locale : String
  intentName : String
  slots : Option (List (String × JSValue))

/-- The accessor `Alexa.getRequestType`. -/
def getRequestType (requestEnvelope : RequestEnvelope) : String := requestEnvelope.type

/-- The accessor `Alexa.getLocale`. -/
def getLocale (requestEnvelope : RequestEnvelope) : String := requestEnvelope.locale

/-- The accessor `Alexa.getIntentName`, which throws unless the request is an
`IntentRequest`. -/
def getIntentName (requestEnvelope : RequestEnvelope) : Except JSError String :=
  if getRequestType requestEnvelope = "IntentRequest" then pure requestEnvelope.intentName
  else throw ⟨"Expecting request type of IntentRequest"⟩

/-- The accessor `Alexa.getSlotValue`: the value of the named slot, `null`
when the intent has no such slot; it throws unless the request is an
`IntentRequest`. -/
def getSlotValue (requestEnvelope : RequestEnvelope) (slotName : String) :
    Except JSError JSValue :=
  if getRequestType requestEnvelope = "IntentRequest" then
    match requestEnvelope.slots with
    | none => pure JSValue.null
    | some slots =>
      match slots.lookup slotName with
      | some v => pure v
      | none => pure JSValue.null
  else throw ⟨"Expecting request type of IntentRequest"⟩

/-- The response under construction: the text given to `speak` and the text
given to `reprompt`, each absent until the builder method is called. -/
structure Response where
  speak : Option String
  reprompt : Option String
  deriving DecidableEq, Repr

/-- A fresh `handlerInput.responseBuilder`. -/
def responseBuilder : Response := ⟨none, none⟩

/-- The builder method `speak`. -/
def Response.speakText (r : Response) (speechOutput : String) : Response :=
  { r with speak := some speechOutput }

/-- The builder method `reprompt`. -/
def Response.repromptText (r : Response) (repromptSpeechOutput : String) : Response :=
  { r with reprompt := some repromptSpeechOutput }

/-- The builder method `getResponse`. -/
def Response.getResponse (r : Response) : Response := r

/-- The handler input: the request envelope and the translator `t` that the
request interceptor attaches. -/
structure HandlerInput where
  requestEnvelope : RequestEnvelope
  t : String → List (String × InterpValue) → String

/-- The interceptor `LocalizationInterceptor.process`: `handlerInput.t` becomes
the translator of a client cloned with the language of the request. -/
def LocalizationInterceptor.process (requestEnvelope : RequestEnvelope) : HandlerInput :=
  { requestEnvelope := requestEnvelope
    t := fun key data => translate (getLocale requestEnvelope) key data }

def LaunchRequestHandler.canHandle (handlerInput : HandlerInput) : Except JSError Bool :=
  pure (getRequestType handlerInput.requestEnvelope == "LaunchRequest")

def LaunchRequestHandler.handle (handlerInput : HandlerInput) : Except JSError Response :=
  let speakOutput := handlerInput.t "WELCOME_MESSAGE" []
  pure ((responseBuilder.speakText speakOutput).repromptText speakOutput).getResponse

def DatosCIntentHandler.canHandle (handlerInput : HandlerInput) : Except JSError Bool :=
  if getRequestType handlerInput.requestEnvelope = "IntentRequest" then do
    let name ← getIntentName handlerInput.requestEnvelope
    pure (name == "centIntent")
  else pure false

def DatosCIntentHandler.handle (handlerInput : HandlerInput) : Except JSError Response := do
  let cent := parseFloat (← getSlotValue handlerInput.requestEnvelope "cent")
  let fahrenheit := (cent * 9 / 5) + 32
  let speakOutput := handlerInput.t "FAHRENHEIT_CONVERSION"
    [("degreesCent", InterpValue.number cent),
     ("degreesFarent", InterpValue.string (fahrenheit.toFixed 2))]
  pure (responseBuilder.speakText speakOutput).getResponse

def DatosFIntentHandler.canHandle (handlerInput : HandlerInput) : Except JSError Bool :=
  if getRequestType handlerInput.requestEnvelope = "IntentRequest" then do
    let name ← getIntentName handlerInput.requestEnvelope
    pure (name == "FarenIntent")
  else pure false

def DatosFIntentHandler.handle (handlerInput : HandlerInput) : Except JSError Response := do
  let farent := parseFloat (← getSlotValue handlerInput.requestEnvelope "farent")
  let celsius := (farent - 32) * 5 / 9
  let speakOutput := handlerInput.t "CELSIUS_CONVERSION"
    [("degreesFarent", InterpValue.number farent),
     ("degreesCent", InterpValue.string (celsius.toFixed 2))]
  pure (responseBuilder.speakText speakOutput).getResponse

def HelpIntentHandler.canHandle (handlerInput : HandlerInput) : Except JSError Bool :=
  if getRequestType handlerInput.requestEnvelope = "IntentRequest" then do
    let name ← getIntentName handlerInput.requestEnvelope
    pure (name == "AMAZON.HelpIntent")
  else pure false

def HelpIntentHandler.handle (handlerInput : HandlerInput) : Except JSError Response :=
  let speakOutput := handlerInput.t "HELP_MESSAGE" []
  pure ((responseBuilder.speakText speakOutput).repromptText speakOutput).getResponse

def CancelAndStopIntentHandler.canHandle (handlerInput : HandlerInput) : Except JSError Bool :=
  if getRequestType handlerInput.requestEnvelope = "IntentRequest" then do
    let name ← getIntentName handlerInput.requestEnvelope
    if name = "AMAZON.CancelIntent" then pure true
    else do
      let name2 ← getIntentName handlerInput.requestEnvelope
      pure (name2 == "AMAZON.StopIntent")
  else pure false

def CancelAndStopIntentHandler.handle (handlerInput : HandlerInput) : Except JSError Response :=
  let speakOutput := handlerInput.t "GOODBYE_MESSAGE" []
  pure (responseBuilder.speakText speakOutput).getResponse

def FallbackIntentHandler.canHandle (handlerInput : HandlerInput) : Except JSError Bool :=
  if getRequestType handlerInput.requestEnvelope = "IntentRequest" then do
    let name ← getIntentName handlerInput.requestEnvelope
    pure (name == "AMAZON.FallbackIntent")
  else pure false

def FallbackIntentHandler.handle (handlerInput : HandlerInput) : Except JSError Response :=
  let speakOutput := handlerInput.t "FALLBACK_MESSAGE" []
  pure ((responseBuilder.speakText speakOutput).repromptText speakOutput).getResponse

def SessionEndedRequestHandler.canHandle (handlerInput : HandlerInput) : Except JSError Bool :=
  pure (getRequestType handlerInput.requestEnvelope == "SessionEndedRequest")

/-- The handler of a session end; the `console.log` call leaves no trace in the
response. -/
def SessionEndedRequestHandler.handle (_handlerInput : HandlerInput) :
    Except JSError Response :=
  pure responseBuilder.getResponse

def IntentReflectorHandler.canHandle (handlerInput : HandlerInput) : Except JSError Bool :=
  if getRequestType handlerInput.requestEnvelope = "IntentRequest" then do
    let name ← getIntentName handlerInput.requestEnvelope
    pure (name != "AMAZON.FallbackIntent")
  else pure false

def IntentReflectorHandler.handle (handlerInput : HandlerInput) : Except JSError Response := do
  let intentName ← getIntentName handlerInput.requestEnvelope
  let speakOutput := "You just triggered " ++ intentName
  pure (responseBuilder.speakText speakOutput).getResponse

def ErrorHandler.canHandle (_handlerInput : HandlerInput) (_error : JSError) : Bool := true

/-- The error handler; the `console.log` call leaves no trace in the
response. -/
def ErrorHandler.handle (handlerInput : HandlerInput) (_error : JSError) :
    Except JSError Response :=
  let speakOutput := handlerInput.t "ERROR_MESSAGE" []
  pure ((responseBuilder.speakText speakOutput).repromptText speakOutput).getResponse

/-! ## Dispatch -/

/-- The request handlers of the skill. -/
inductive Handler where
  | LaunchRequestHandler
  | DatosCIntentHandler
  | DatosFIntentHandler
  | HelpIntentHandler
  | CancelAndStopIntentHandler
  | FallbackIntentHandler
  | SessionEndedRequestHandler
  | IntentReflectorHandler
  deriving DecidableEq, Repr

/-- The `canHandle` method of a request handler. -/
def Handler.canHandle : Handler → HandlerInput → Except JSError Bool
  | Handler.LaunchRequestHandler => LaunchRequestHandler.canHandle
  | Handler.DatosCIntentHandler => DatosCIntentHandler.canHandle
  | Handler.DatosFIntentHandler => DatosFIntentHandler.canHandle
  | Handler.HelpIntentHandler => HelpIntentHandler.canHandle
  | Handler.CancelAndStopIntentHandler => CancelAndStopIntentHandler.canHandle
  | Handler.FallbackIntentHandler => FallbackIntentHandler.canHandle
  | Handler.SessionEndedRequestHandler => SessionEndedRequestHandler.canHandle
  | Handler.IntentReflectorHandler => IntentReflectorHandler.canHandle

/-- The `handle` method of a request handler. -/
def Handler.handle : Handler → HandlerInput → Except JSError Response
  | Handler.LaunchRequestHandler => LaunchRequestHandler.handle
  | Handler.DatosCIntentHandler => DatosCIntentHandler.handle
  | Handler.DatosFIntentHandler => DatosFIntentHandler.handle
  | Handler.HelpIntentHandler => HelpIntentHandler.handle
  | Handler.CancelAndStopIntentHandler => CancelAndStopIntentHandler.handle
  | Handler.FallbackIntentHandler => FallbackIntentHandler.handle
  | Handler.SessionEndedRequestHandler => SessionEndedRequestHandler.handle
  | Handler.IntentReflectorHandler => IntentReflectorHandler.handle

/-- The handlers in the order of `addRequestHandlers`. -/
def requestHandlers : List Handler :=
  [ Handler.LaunchRequestHandler,
    Handler.DatosCIntentHandler,
    Handler.DatosFIntentHandler,
    Handler.HelpIntentHandler,
    Handler.CancelAndStopIntentHandler,
    Handler.FallbackIntentHandler,
    Handler.SessionEndedRequestHandler,
    Handler.IntentReflectorHandler ]

/-- The request mapper of the SDK: the first handler of the list whose
`canHandle` returns true, `none` when there is none; a throwing `canHandle`
ends the search with its error. -/
def getRequestHandler : List Handler → HandlerInput → Except JSError (Option Handler)
  | [], _ => pure none
  | h :: hs, handlerInput => do
    if (← h.canHandle handlerInput) then pure (some h)
    else getRequestHandler hs handlerInput

/-- What one invocation of the skill did: the request handlers whose `handle`
ran, whether the error handler ran, and the outcome. -/
structure Invocation where
  handled : List Handler
  errorHandled : Bool
  result : Except JSError Response

/-- The error branch of the dispatcher: the registered `ErrorHandler` takes the
error if its `canHandle` accepts it, else the error is thrown on. -/
def dispatchError (handlerInput : HandlerInput) (handled : List Handler) (error : JSError) :
    Invocation :=
  if ErrorHandler.canHandle handlerInput error then
    ⟨handled, true, ErrorHandler.handle handlerInput error⟩
  else ⟨handled, false, throw error⟩

/-- The dispatcher of the SDK over a list of request handlers: the request
interceptor runs, the first matching handler handles the request, and an error
thrown on the way, or the absence of a matching handler, goes to the error
handler. -/
def dispatch (handlers : List Handler) (requestEnvelope : RequestEnvelope) : Invocation :=
  let handlerInput := LocalizationInterceptor.process requestEnvelope
  match getRequestHandler handlers handlerInput with
  | Except.error err => dispatchError handlerInput [] err
  | Except.ok none =>
    dispatchError handlerInput [] ⟨"Unable to find a suitable request handler."⟩
  | Except.ok (some h) =>
    match h.handle handlerInput with
    | Except.ok response => ⟨[h], false, pure response⟩
    | Except.error err => dispatchError handlerInput [h] err

/-- The exported Lambda handler `exports.handler`. -/
def handler (requestEnvelope : RequestEnvelope) : Invocation :=
  dispatch requestHandlers requestEnvelope

/-! ## Vocabulary of the statements -/

/-- A translator that returns the key it is asked for, to observe which key a
handler requests. -/
def echoInput (requestEnvelope : RequestEnvelope) : HandlerInput :=
  { requestEnvelope := requestEnvelope, t := fun key _ => key }

/-- The handler that answers an `IntentRequest` with the given intent name. -/
def intentHandler (name : String) : Handler :=
  if name = "centIntent" then Handler.DatosCIntentHandler
  else if name = "FarenIntent" then Handler.DatosFIntentHandler
  else if name = "AMAZON.HelpIntent" then Handler.HelpIntentHandler
  else if name = "AMAZON.CancelIntent" ∨ name = "AMAZON.StopIntent" then
    Handler.CancelAndStopIntentHandler
  else if name = "AMAZON.FallbackIntent" then Handler.FallbackIntentHandler
  else Handler.IntentReflectorHandler

/-- The characters that occur in the text of a Number. -/
def numberChars : List Char := "0123456789.-+eInfityNa".data

/-- Texts made of `numberChars` only. -/
def NumberText (cs : List Char) : Prop := ∀ c ∈ cs, c ∈ numberChars

instance (cs : List Char) : Decidable (NumberText cs) := by
  unfold NumberText
  infer_instance

/-- The numeral of `± n / 100` written with exactly two decimals: an optional
minus sign, the digits of the integer part, a point and two digits. -/
def twoDecimalNumeral (neg : Bool) (n : Nat) : List Char :=
  (if neg then ['-'] else []) ++
    (decDigits (n / 100) ++ ['.', digitChar (n / 10 % 10), digitChar (n % 10)])

/-- The text `d` is the Number `x` rounded to exactly two decimal places: `x` is
finite and `d` is the two-decimal numeral of a multiple of `0.01` that is
within `0.005` of `x`. -/
def RoundedToTwoDecimals (d : List Char) (x : JSNumber) : Prop :=
  x.isFinite = true ∧ ∃ (neg : Bool) (n : Nat), d = twoDecimalNumeral neg n ∧
    |(if neg then -1 else 1) * ((n : ℚ) / 100) - x.toRat| ≤ 1 / 200

/-- The sentence of `CELSIUS_CONVERSION` with the two quantities filled in. -/
def celsiusSentence (degreesFarent degreesCent : List Char) : String :=
  String.mk (degreesFarent ++ (" Fahrenheit is equal to ".data ++
    (degreesCent ++ " degrees Celsius.".data)))

/-- The sentence of `FAHRENHEIT_CONVERSION` with the two quantities filled in. -/
def fahrenheitSentence (degreesCent degreesFarent : List Char) : String :=
  String.mk (degreesCent ++ (" Centigrados son ".data ++
    (degreesFarent ++ " grados Fahrenheit.".data)))

/-- C1 at one request, as the claim states it: whenever the `farent` slot
parses to a Number, the handler speaks the `CELSIUS_CONVERSION` sentence with
that Number and with its conversion rounded to exactly two decimal places, and
gives no reprompt. -/
def FarenClaim (env : RequestEnvelope) : Prop :=
  ∀ v, getSlotValue env "farent" = Except.ok v → (parseFloat v).isNaN = false →
    ∃ d, RoundedToTwoDecimals d ((parseFloat v - 32) * 5 / 9) ∧
      DatosFIntentHandler.handle (LocalizationInterceptor.process env)
        = Except.ok ⟨some (celsiusSentence (parseFloat v).toString d), none⟩

/-- C2 at one request, as the claim states it: whenever the `cent` slot parses
to a Number, the handler speaks the `FAHRENHEIT_CONVERSION` sentence with that
Number and with its conversion rounded to exactly two decimal places. -/
def CentClaim (env : RequestEnvelope) : Prop :=
  ∀ v, getSlotValue env "cent" = Except.ok v → (parseFloat v).isNaN = false →
    ∃ d, RoundedToTwoDecimals d (parseFloat v * 9 / 5 + 32) ∧
      DatosCIntentHandler.handle (LocalizationInterceptor.process env)
        = Except.ok ⟨some (fahrenheitSentence (parseFloat v).toString d), none⟩

/-- C4 at one request, as the claim states it: the request ends in the error
handler, and the response is the apology `ERROR_MESSAGE` of the language of
the locale, as spoken text and reprompt. -/
def UnparsedSlotClaim (env : RequestEnvelope) : Prop :=
  ∀ L msg, getLanguagePartFromCode env.locale = L → getResource L "ERROR_MESSAGE" = some msg →
    (handler env).errorHandled = true ∧
    (handler env).result = Except.ok ⟨some msg, some msg⟩

/-- The Number `x` is finite and within `ε` of the rational `r`. -/
def Near (x : JSNumber) (r ε : ℚ) : Prop :=
  x.isFinite = true ∧ |x.toRat - r| ≤ ε

/-- C5 as the claim states it, for the Celsius start value `c`: the two
conversions in turn give a Number within `0.01` of `c`. -/
def CentRoundTripClaim (c : JSNumber) : Prop :=
  Near (((c * 9 / 5 + 32) - 32) * 5 / 9) c.toRat (1 / 100)

/-- C5 as the claim states it, for the Fahrenheit start value `f`. -/
def FarenRoundTripClaim (f : JSNumber) : Prop :=
  Near ((f - 32) * 5 / 9 * 9 / 5 + 32) f.toRat (1 / 100)

/-! ## The translator on the locales of a catalog language -/

theorem lookup_other (l : String) (h1 : l ≠ "en") (h2 : l ≠ "es") :
    languageStrings.lookup l = none := by
  have e1 : (l == "en") = false := beq_eq_false_iff_ne.mpr h1
  have e2 : (l == "es") = false := beq_eq_false_iff_ne.mpr h2
  simp only [languageStrings, List.lookup, e1, e2]

theorem getResource_other (l key : String) (h1 : l ≠ "en") (h2 : l ≠ "es") :
    getResource l key = none := by
  simp [getResource, lookup_other l h1 h2]

theorem resolve_self (L key : String) (hL : L = "en" ∨ L = "es") :
    resolve L key = getResource L key := by
  have hdev : getResource "dev" key = none := getResource_other _ _ (by decide) (by decide)
  have hp : getLanguagePartFromCode L = L := by
    rcases hL with h | h <;> subst h <;> decide
  simp only [resolve, toResolveHierarchy, List.findSome?, hp, hdev]
  cases getResource L key <;> rfl

theorem resolve_of_languagePart (l L key : String) (hL : L = "en" ∨ L = "es")
    (h : getLanguagePartFromCode l = L) : resolve l key = getResource L key := by
  have hdev : getResource "dev" key = none := getResource_other _ _ (by decide) (by decide)
  by_cases h1 : l = "en"
  · subst h1
    have : L = "en" := by rw [← h]; decide
    subst this
    exact resolve_self _ _ hL
  · by_cases h2 : l = "es"
    · subst h2
      have : L = "es" := by rw [← h]; decide
      subst this
      exact resolve_self _ _ hL
    · simp only [resolve, toResolveHierarchy, List.findSome?, h, hdev,
        getResource_other l key h1 h2]
      cases getResource L key <;> rfl

theorem translate_of_languagePart (l L key : String) (data : List (String × InterpValue))
    (hL : L = "en" ∨ L = "es") (h : getLanguagePartFromCode l = L) :
    translate l key data = translate L key data := by
  simp only [translate, resolve_of_languagePart l L key hL h, resolve_self L key hL]

/-! ## Which handler the dispatcher selects -/

theorem getRequestHandler_intent (env : RequestEnvelope) (h : env.type = "IntentRequest") :
    getRequestHandler requestHandlers (LocalizationInterceptor.process env)
      = Except.ok (some (intentHandler env.intentName)) := by
  simp only [getRequestHandler, requestHandlers, Handler.canHandle,
    LaunchRequestHandler.canHandle, DatosCIntentHandler.canHandle,
    DatosFIntentHandler.canHandle, HelpIntentHandler.canHandle,
    CancelAndStopIntentHandler.canHandle, FallbackIntentHandler.canHandle,
    SessionEndedRequestHandler.canHandle, IntentReflectorHandler.canHandle,
    getIntentName, getRequestType, LocalizationInterceptor.process, h, intentHandler]
  by_cases h1 : env.intentName = "centIntent"
  · simp [h1, bind, Except.bind, pure, Except.pure]
  by_cases h2 : env.intentName = "FarenIntent"
  · simp [h2, bind, Except.bind, pure, Except.pure]
  by_cases h3 : env.intentName = "AMAZON.HelpIntent"
  · simp [h3, bind, Except.bind, pure, Except.pure]
  by_cases h4 : env.intentName = "AMAZON.CancelIntent"
  · simp [h4, bind, Except.bind, pure, Except.pure]
  by_cases h5 : env.intentName = "AMAZON.StopIntent"
  · simp [h5, bind, Except.bind, pure, Except.pure]
  by_cases h6 : env.intentName = "AMAZON.FallbackIntent"
  · simp [h6, bind, Except.bind, pure, Except.pure]
  simp [h1, h2, h3, h4, h5, h6, bind, Except.bind, pure, Except.pure]

theorem getRequestHandler_launch (env : RequestEnvelope) (h : env.type = "LaunchRequest") :
    getRequestHandler requestHandlers (LocalizationInterceptor.process env)
      = Except.ok (some Handler.LaunchRequestHandler) := by
  simp [getRequestHandler, requestHandlers, Handler.canHandle,
    LaunchRequestHandler.canHandle, getRequestType, LocalizationInterceptor.process, h,
    bind, Except.bind, pure, Except.pure]

theorem getRequestHandler_sessionEnded (env : RequestEnvelope)
    (h : env.type = "SessionEndedRequest") :
    getRequestHandler requestHandlers (LocalizationInterceptor.process env)
      = Except.ok (some Handler.SessionEndedRequestHandler) := by
  simp [getRequestHandler, requestHandlers, Handler.canHandle,
    LaunchRequestHandler.canHandle, DatosCIntentHandler.canHandle,
    DatosFIntentHandler.canHandle, HelpIntentHandler.canHandle,
    CancelAndStopIntentHandler.canHandle, FallbackIntentHandler.canHandle,
    SessionEndedRequestHandler.canHandle, IntentReflectorHandler.canHandle,
    getRequestType, LocalizationInterceptor.process, h,
    bind, Except.bind, pure, Except.pure]

theorem canHandle_other (env : RequestEnvelope) (h1 : env.type ≠ "LaunchRequest")
    (h2 : env.type ≠ "IntentRequest") (h3 : env.type ≠ "SessionEndedRequest")
    (g : Handler) :
    g.canHandle (LocalizationInterceptor.process env) = Except.ok false := by
  cases g <;>
  simp [Handler.canHandle,
    LaunchRequestHandler.canHandle, DatosCIntentHandler.canHandle,
    DatosFIntentHandler.canHandle, HelpIntentHandler.canHandle,
    CancelAndStopIntentHandler.canHandle, FallbackIntentHandler.canHandle,
    SessionEndedRequestHandler.canHandle, IntentReflectorHandler.canHandle,
    getRequestType, LocalizationInterceptor.process, h1, h2, h3, pure, Except.pure]

/-- The first handler of a list that accepts the input is the one the request
mapper returns, and every handler before it declined. -/
theorem getRequestHandler_first (hs : List Handler) (inp : HandlerInput) (h : Handler)
    (hsel : getRequestHandler hs inp = Except.ok (some h)) :
    ∃ pre post, hs = pre ++ h :: post ∧ h.canHandle inp = Except.ok true ∧
      ∀ g ∈ pre, g.canHandle inp = Except.ok false := by
  induction hs with
  | nil => simp [getRequestHandler, pure, Except.pure] at hsel
  | cons a as ih =>
    simp only [getRequestHandler, bind, Except.bind] at hsel
    cases hc : a.canHandle inp with
    | error e => simp [hc] at hsel
    | ok b =>
      cases b with
      | true =>
        simp [hc, pure, Except.pure] at hsel
        subst hsel
        exact ⟨[], as, rfl, hc, by simp⟩
      | false =>
        simp [hc] at hsel
        obtain ⟨pre, post, e1, e2, e3⟩ := ih hsel
        refine ⟨a :: pre, post, by simp [e1], e2, ?_⟩
        intro g hg
        rcases List.mem_cons.mp hg with rfl | hg
        · exact hc
        · exact e3 g hg

/-- The dispatcher runs the `handle` of at most one request handler, and a
handler that ran is what the request mapper selected. -/
theorem dispatch_handled (hs : List Handler) (env : RequestEnvelope) :
    (dispatch hs env).handled.length ≤ 1 ∧
    ∀ h ∈ (dispatch hs env).handled,
      getRequestHandler hs (LocalizationInterceptor.process env) = Except.ok (some h) := by
  cases hsel : getRequestHandler hs (LocalizationInterceptor.process env) with
  | error e => simp [dispatch, hsel, dispatchError, ErrorHandler.canHandle]
  | ok o =>
    cases o with
    | none => simp [dispatch, hsel, dispatchError, ErrorHandler.canHandle]
    | some h =>
      cases hh : h.handle (LocalizationInterceptor.process env) with
      | error e => simp [dispatch, hsel, hh, dispatchError, ErrorHandler.canHandle]
      | ok r => simp [dispatch, hsel, hh]

theorem handler_of_selected (env : RequestEnvelope) (h : Handler)
    (hsel : getRequestHandler requestHandlers (LocalizationInterceptor.process env)
      = Except.ok (some h)) :
    (handler env).handled = [h] := by
  cases hh : h.handle (LocalizationInterceptor.process env) with
  | error e => simp [handler, dispatch, hsel, hh, dispatchError, ErrorHandler.canHandle]
  | ok r => simp [handler, dispatch, hsel, hh]

/-! ## The claims about dispatch -/

/-- C7: for every request at most one request handler runs, and it is the first
of the registration order (Launch, centIntent, FarenIntent, Help, Cancel/Stop,
Fallback, SessionEnded, Reflector) whose `canHandle` is true; a `centIntent`,
`FarenIntent`, `AMAZON.HelpIntent`, `AMAZON.CancelIntent` or `AMAZON.StopIntent`
request goes to its own handler although the predicate of
`IntentReflectorHandler` is true for it as well. -/
theorem C7_first_match_wins :
    requestHandlers =
      [ Handler.LaunchRequestHandler, Handler.DatosCIntentHandler,
        Handler.DatosFIntentHandler, Handler.HelpIntentHandler,
        Handler.CancelAndStopIntentHandler, Handler.FallbackIntentHandler,
        Handler.SessionEndedRequestHandler, Handler.IntentReflectorHandler ] ∧
    (∀ env : RequestEnvelope,
      (handler env).handled.length ≤ 1 ∧
      ∀ h ∈ (handler env).handled,
        ∃ pre post, requestHandlers = pre ++ h :: post ∧
          h.canHandle (LocalizationInterceptor.process env) = Except.ok true ∧
          ∀ g ∈ pre, g.canHandle (LocalizationInterceptor.process env) = Except.ok false) ∧
    (∀ (env : RequestEnvelope) (h : Handler),
      getRequestHandler requestHandlers (LocalizationInterceptor.process env)
        = Except.ok (some h) → (handler env).handled = [h]) ∧
    (∀ env : RequestEnvelope, env.type = "IntentRequest" →
      Handler.IntentReflectorHandler.canHandle (LocalizationInterceptor.process env)
        = Except.ok (decide (env.intentName ≠ "AMAZON.FallbackIntent")) ∧
      (env.intentName = "centIntent" →
        (handler env).handled = [Handler.DatosCIntentHandler]) ∧
      (env.intentName = "FarenIntent" →
        (handler env).handled = [Handler.DatosFIntentHandler]) ∧
      (env.intentName = "AMAZON.HelpIntent" →
        (handler env).handled = [Handler.HelpIntentHandler]) ∧
      (env.intentName = "AMAZON.CancelIntent" →
        (handler env).handled = [Handler.CancelAndStopIntentHandler]) ∧
      (env.intentName = "AMAZON.StopIntent" →
        (handler env).handled = [Handler.CancelAndStopIntentHandler])) := by
  refine ⟨rfl, ?_, ?_, ?_⟩
  · intro env
    refine ⟨(dispatch_handled requestHandlers env).1, ?_⟩
    intro h hh
    exact getRequestHandler_first _ _ _ ((dispatch_handled requestHandlers env).2 h hh)
  · intro env h hsel
    exact handler_of_selected env h hsel
  · intro env htype
    have key : ∀ n h, env.intentName = n → intentHandler n = h → (handler env).handled = [h] := by
      intro n h hn hh
      apply handler_of_selected
      rw [getRequestHandler_intent env htype, hn, hh]
    refine ⟨?_, fun hn => key _ _ hn (by decide), fun hn => key _ _ hn (by decide),
      fun hn => key _ _ hn (by decide), fun hn => key _ _ hn (by decide),
      fun hn => key _ _ hn (by decide)⟩
    by_cases hf : env.intentName = "AMAZON.FallbackIntent" <;>
    simp [Handler.canHandle, IntentReflectorHandler.canHandle, getIntentName, getRequestType,
      LocalizationInterceptor.process, htype, hf, bind, Except.bind, pure, Except.pure]

theorem C7_first_match_wins_witness :
    Handler.IntentReflectorHandler.canHandle
        (LocalizationInterceptor.process ⟨"IntentRequest", "en-US", "AMAZON.StopIntent", none⟩)
      = Except.ok (decide ("AMAZON.StopIntent" ≠ "AMAZON.FallbackIntent")) ∧
    (handler ⟨"IntentRequest", "en-US", "AMAZON.StopIntent", none⟩).handled
      = [Handler.CancelAndStopIntentHandler] :=
  ⟨(C7_first_match_wins.2.2.2 ⟨"IntentRequest", "en-US", "AMAZON.StopIntent", none⟩ rfl).1,
   (C7_first_match_wins.2.2.2
      ⟨"IntentRequest", "en-US", "AMAZON.StopIntent", none⟩ rfl).2.2.2.2.2 rfl⟩

/-- C10: a `LaunchRequest`, an `IntentRequest` with any intent name, and a
`SessionEndedRequest` each have a registered handler whose `canHandle` is true;
a request of any other type has none; and each of the eight handlers is the
first match of some request. -/
theorem C10_dispatch_total_and_no_dead_handler :
    (∀ env : RequestEnvelope,
      env.type = "LaunchRequest" ∨ env.type = "IntentRequest" ∨
        env.type = "SessionEndedRequest" →
      ∃ h ∈ requestHandlers,
        h.canHandle (LocalizationInterceptor.process env) = Except.ok true) ∧
    (∀ env : RequestEnvelope,
      env.type ≠ "LaunchRequest" → env.type ≠ "IntentRequest" →
        env.type ≠ "SessionEndedRequest" →
      ∀ h ∈ requestHandlers,
        h.canHandle (LocalizationInterceptor.process env) = Except.ok false) ∧
    (∀ h : Handler, h ∈ requestHandlers ∧ ∃ env : RequestEnvelope,
      getRequestHandler requestHandlers (LocalizationInterceptor.process env)
        = Except.ok (some h) ∧ (handler env).handled = [h]) := by
  refine ⟨?_, ?_, ?_⟩
  · intro env ht
    have sel : ∀ h, getRequestHandler requestHandlers (LocalizationInterceptor.process env)
        = Except.ok (some h) → ∃ h ∈ requestHandlers,
          h.canHandle (LocalizationInterceptor.process env) = Except.ok true := by
      intro h hsel
      obtain ⟨pre, post, e1, e2, _⟩ := getRequestHandler_first _ _ _ hsel
      exact ⟨h, by rw [e1]; simp, e2⟩
    rcases ht with ht | ht | ht
    · exact sel _ (getRequestHandler_launch env ht)
    · exact sel _ (getRequestHandler_intent env ht)
    · exact sel _ (getRequestHandler_sessionEnded env ht)
  · intro env h1 h2 h3 h _
    exact canHandle_other env h1 h2 h3 h
  · have mk : ∀ (h : Handler) (env : RequestEnvelope),
        getRequestHandler requestHandlers (LocalizationInterceptor.process env)
          = Except.ok (some h) →
        ∃ env : RequestEnvelope,
          getRequestHandler requestHandlers (LocalizationInterceptor.process env)
            = Except.ok (some h) ∧ (handler env).handled = [h] :=
      fun h env hsel => ⟨env, hsel, handler_of_selected env h hsel⟩
    intro h
    cases h
    · exact ⟨by decide, mk _ ⟨"LaunchRequest", "en-US", "", none⟩
        (getRequestHandler_launch _ rfl)⟩
    · exact ⟨by decide, mk _ ⟨"IntentRequest", "es-ES", "centIntent", none⟩
        (getRequestHandler_intent _ rfl)⟩
    · exact ⟨by decide, mk _ ⟨"IntentRequest", "en-US", "FarenIntent", none⟩
        (getRequestHandler_intent _ rfl)⟩
    · exact ⟨by decide, mk _ ⟨"IntentRequest", "en-US", "AMAZON.HelpIntent", none⟩
        (getRequestHandler_intent _ rfl)⟩
    · exact ⟨by decide, mk _ ⟨"IntentRequest", "en-US", "AMAZON.CancelIntent", none⟩
        (getRequestHandler_intent _ rfl)⟩
    · exact ⟨by decide, mk _ ⟨"IntentRequest", "en-US", "AMAZON.FallbackIntent", none⟩
        (getRequestHandler_intent _ rfl)⟩
    · exact ⟨by decide, mk _ ⟨"SessionEndedRequest", "en-US", "", none⟩
        (getRequestHandler_sessionEnded _ rfl)⟩
    · exact ⟨by decide, mk _ ⟨"IntentRequest", "en-US", "HelloWorldIntent", none⟩
        (getRequestHandler_intent _ rfl)⟩

theorem C10_dispatch_total_and_no_dead_handler_witness :
    (∃ h ∈ requestHandlers,
      h.canHandle
        (LocalizationInterceptor.process ⟨"IntentRequest", "en-US", "AMAZON.FallbackIntent", none⟩)
        = Except.ok true) ∧
    (∀ h ∈ requestHandlers,
      h.canHandle (LocalizationInterceptor.process ⟨"CanFulfillIntentRequest", "en-US", "", none⟩)
        = Except.ok false) :=
  ⟨C10_dispatch_total_and_no_dead_handler.1
      ⟨"IntentRequest", "en-US", "AMAZON.FallbackIntent", none⟩ (Or.inr (Or.inl rfl)),
   C10_dispatch_total_and_no_dead_handler.2.1
      ⟨"CanFulfillIntentRequest", "en-US", "", none⟩ (by decide) (by decide) (by decide)⟩

theorem handler_of_handled (env : RequestEnvelope) (h : Handler) (r : Response)
    (hsel : getRequestHandler requestHandlers (LocalizationInterceptor.process env)
      = Except.ok (some h))
    (hh : h.handle (LocalizationInterceptor.process env) = Except.ok r) :
    handler env = ⟨[h], false, Except.ok r⟩ := by
  simp [handler, dispatch, hsel, hh, pure, Except.pure]

theorem process_t (env : RequestEnvelope) (L key : String) (data : List (String × InterpValue))
    (hL : L = "en" ∨ L = "es") (h : getLanguagePartFromCode env.locale = L) :
    (LocalizationInterceptor.process env).t key data = translate L key data := by
  simp only [LocalizationInterceptor.process, getLocale]
  exact translate_of_languagePart _ _ _ _ hL h

/-- Each handler, run with a translator that echoes the key it is asked for,
speaks one of `handlerKeys`, or uses no key at all (the session-end handler
speaks nothing, the reflector builds its text itself). -/
theorem handler_keys_used (env : RequestEnvelope) (htype : env.type = "IntentRequest") :
    (LaunchRequestHandler.handle (echoInput env)).map Response.speak
      = Except.ok (some "WELCOME_MESSAGE") ∧
    (DatosCIntentHandler.handle (echoInput env)).map Response.speak
      = Except.ok (some "FAHRENHEIT_CONVERSION") ∧
    (DatosFIntentHandler.handle (echoInput env)).map Response.speak
      = Except.ok (some "CELSIUS_CONVERSION") ∧
    (HelpIntentHandler.handle (echoInput env)).map Response.speak
      = Except.ok (some "HELP_MESSAGE") ∧
    (CancelAndStopIntentHandler.handle (echoInput env)).map Response.speak
      = Except.ok (some "GOODBYE_MESSAGE") ∧
    (FallbackIntentHandler.handle (echoInput env)).map Response.speak
      = Except.ok (some "FALLBACK_MESSAGE") ∧
    (SessionEndedRequestHandler.handle (echoInput env)).map Response.speak
      = Except.ok none ∧
    (∀ err, (ErrorHandler.handle (echoInput env) err).map Response.speak
      = Except.ok (some "ERROR_MESSAGE")) := by
  refine ⟨rfl, ?_, ?_, rfl, rfl, rfl, rfl, fun _ => rfl⟩
  · cases hs : env.slots with
    | none =>
      simp [DatosCIntentHandler.handle, getSlotValue, getRequestType, echoInput, htype, hs,
        bind, Except.bind, pure, Except.pure, Except.map, responseBuilder, Response.speakText,
        Response.getResponse]
    | some sl =>
      cases hl : sl.lookup "cent" <;>
      simp [DatosCIntentHandler.handle, getSlotValue, getRequestType, echoInput, htype, hs, hl,
        bind, Except.bind, pure, Except.pure, Except.map, responseBuilder, Response.speakText,
        Response.getResponse]
  · cases hs : env.slots with
    | none =>
      simp [DatosFIntentHandler.handle, getSlotValue, getRequestType, echoInput, htype, hs,
        bind, Except.bind, pure, Except.pure, Except.map, responseBuilder, Response.speakText,
        Response.getResponse]
    | some sl =>
      cases hl : sl.lookup "farent" <;>
      simp [DatosFIntentHandler.handle, getSlotValue, getRequestType, echoInput, htype, hs, hl,
        bind, Except.bind, pure, Except.pure, Except.map, responseBuilder, Response.speakText,
        Response.getResponse]

/-! ## The catalog -/

/-- C8: `ErrorHandler.canHandle` is true for every input and error; in a locale
of a catalog language `ErrorHandler.handle` speaks the `ERROR_MESSAGE` of that
language, which is not empty, and reprompts with the same text; the error
branch of the dispatcher returns that response for every error, and a request
that no handler accepts ends there. -/
theorem C8_error_handler_apology :
    (∀ (handlerInput : HandlerInput) (error : JSError),
      ErrorHandler.canHandle handlerInput error = true) ∧
    (∀ (env : RequestEnvelope) (L : String), L = "en" ∨ L = "es" →
      getLanguagePartFromCode env.locale = L →
      ∃ msg, getResource L "ERROR_MESSAGE" = some msg ∧ msg ≠ "" ∧
        (∀ error, ErrorHandler.handle (LocalizationInterceptor.process env) error
          = Except.ok ⟨some msg, some msg⟩) ∧
        (∀ handled error,
          dispatchError (LocalizationInterceptor.process env) handled error
            = ⟨handled, true, Except.ok ⟨some msg, some msg⟩⟩) ∧
        (env.type ≠ "LaunchRequest" → env.type ≠ "IntentRequest" →
          env.type ≠ "SessionEndedRequest" →
          handler env = ⟨[], true, Except.ok ⟨some msg, some msg⟩⟩)) := by
  refine ⟨fun _ _ => rfl, ?_⟩
  intro env L hL hloc
  have ht := process_t env L "ERROR_MESSAGE" [] hL hloc
  have hnone : env.type ≠ "LaunchRequest" → env.type ≠ "IntentRequest" →
      env.type ≠ "SessionEndedRequest" →
      getRequestHandler requestHandlers (LocalizationInterceptor.process env)
        = Except.ok none := by
    intro h1 h2 h3
    simp [getRequestHandler, requestHandlers, canHandle_other env h1 h2 h3, bind, Except.bind,
      pure, Except.pure]
  rcases hL with h | h <;> subst h
  · refine ⟨"Sorry, I had trouble doing what you asked. Please try again.", by decide,
      by decide, ?_, ?_, ?_⟩
    · intro error
      simp only [ErrorHandler.handle, ht]
      rfl
    · intro handled error
      simp only [dispatchError, ErrorHandler.canHandle, ErrorHandler.handle, ht]
      rfl
    · intro h1 h2 h3
      simp only [handler, dispatch, hnone h1 h2 h3, dispatchError, ErrorHandler.canHandle,
        ErrorHandler.handle, ht]
      rfl
  · refine ⟨"Lo siento, tuve problemas para hacer lo que pediste. Por favor, inténtalo de nuevo.",
      by decide, by decide, ?_, ?_, ?_⟩
    · intro error
      simp only [ErrorHandler.handle, ht]
      rfl
    · intro handled error
      simp only [dispatchError, ErrorHandler.canHandle, ErrorHandler.handle, ht]
      rfl
    · intro h1 h2 h3
      simp only [handler, dispatch, hnone h1 h2 h3, dispatchError, ErrorHandler.canHandle,
        ErrorHandler.handle, ht]
      rfl

theorem C8_error_handler_apology_witness :
    handler ⟨"System.ExceptionEncountered", "es-MX", "", none⟩
      = ⟨[], true,
          Except.ok
            ⟨some "Lo siento, tuve problemas para hacer lo que pediste. Por favor, inténtalo de nuevo.",
             some "Lo siento, tuve problemas para hacer lo que pediste. Por favor, inténtalo de nuevo."⟩⟩ := by
  obtain ⟨msg, hres, _, _, _, hh⟩ :=
    C8_error_handler_apology.2 ⟨"System.ExceptionEncountered", "es-MX", "", none⟩ "es"
      (Or.inr rfl) (by decide)
  have hcat : getResource "es" "ERROR_MESSAGE"
      = some "Lo siento, tuve problemas para hacer lo que pediste. Por favor, inténtalo de nuevo." := by
    decide
  rw [hcat] at hres
  rw [← Option.some.inj hres] at hh
  exact hh (by decide) (by decide) (by decide)

/-- C9: in a locale of a catalog language, a `LaunchRequest`, an
`AMAZON.HelpIntent` and an `AMAZON.FallbackIntent` are answered with the
`WELCOME_MESSAGE`, `HELP_MESSAGE` and `FALLBACK_MESSAGE` of the language as
both spoken text and reprompt, and `AMAZON.CancelIntent` and
`AMAZON.StopIntent` with its `GOODBYE_MESSAGE` as spoken text and no reprompt:
of these five the response has a reprompt exactly when the request is not
Cancel or Stop. -/
theorem C9_reprompt_unless_cancel_or_stop (env : RequestEnvelope) (L : String)
    (hL : L = "en" ∨ L = "es") (hloc : getLanguagePartFromCode env.locale = L) :
    (env.type = "LaunchRequest" →
      ∃ msg, getResource L "WELCOME_MESSAGE" = some msg ∧
        handler env = ⟨[Handler.LaunchRequestHandler], false,
          Except.ok ⟨some msg, some msg⟩⟩) ∧
    (env.type = "IntentRequest" → env.intentName = "AMAZON.HelpIntent" →
      ∃ msg, getResource L "HELP_MESSAGE" = some msg ∧
        handler env = ⟨[Handler.HelpIntentHandler], false,
          Except.ok ⟨some msg, some msg⟩⟩) ∧
    (env.type = "IntentRequest" → env.intentName = "AMAZON.FallbackIntent" →
      ∃ msg, getResource L "FALLBACK_MESSAGE" = some msg ∧
        handler env = ⟨[Handler.FallbackIntentHandler], false,
          Except.ok ⟨some msg, some msg⟩⟩) ∧
    (env.type = "IntentRequest" →
      env.intentName = "AMAZON.CancelIntent" ∨ env.intentName = "AMAZON.StopIntent" →
      ∃ msg, getResource L "GOODBYE_MESSAGE" = some msg ∧
        handler env = ⟨[Handler.CancelAndStopIntentHandler], false,
          Except.ok ⟨some msg, none⟩⟩) := by
  have tW := process_t env L "WELCOME_MESSAGE" [] hL hloc
  have tH := process_t env L "HELP_MESSAGE" [] hL hloc
  have tF := process_t env L "FALLBACK_MESSAGE" [] hL hloc
  have tG := process_t env L "GOODBYE_MESSAGE" [] hL hloc
  have selI : ∀ n h, env.type = "IntentRequest" → env.intentName = n → intentHandler n = h →
      getRequestHandler requestHandlers (LocalizationInterceptor.process env)
        = Except.ok (some h) := by
    intro n h ht hn hh
    rw [getRequestHandler_intent env ht, hn, hh]
  refine ⟨?_, ?_, ?_, ?_⟩
  · intro ht
    refine ⟨translate L "WELCOME_MESSAGE" [], ?_,
      handler_of_handled env _ _ (getRequestHandler_launch env ht) ?_⟩
    · rcases hL with h | h <;> subst h <;> rfl
    · simp only [Handler.handle, LaunchRequestHandler.handle, tW]
      rfl
  · intro ht hn
    refine ⟨translate L "HELP_MESSAGE" [], ?_,
      handler_of_handled env _ _ (selI _ _ ht hn (by decide)) ?_⟩
    · rcases hL with h | h <;> subst h <;> rfl
    · simp only [Handler.handle, HelpIntentHandler.handle, tH]
      rfl
  · intro ht hn
    refine ⟨translate L "FALLBACK_MESSAGE" [], ?_,
      handler_of_handled env _ _ (selI _ _ ht hn (by decide)) ?_⟩
    · rcases hL with h | h <;> subst h <;> rfl
    · simp only [Handler.handle, FallbackIntentHandler.handle, tF]
      rfl
  · intro ht hn
    have hsel : getRequestHandler requestHandlers (LocalizationInterceptor.process env)
        = Except.ok (some Handler.CancelAndStopIntentHandler) := by
      rcases hn with hn | hn
      · exact selI _ _ ht hn (by decide)
      · exact selI _ _ ht hn (by decide)
    refine ⟨translate L "GOODBYE_MESSAGE" [], ?_, handler_of_handled env _ _ hsel ?_⟩
    · rcases hL with h | h <;> subst h <;> rfl
    · simp only [Handler.handle, CancelAndStopIntentHandler.handle, tG]
      rfl

theorem C9_reprompt_unless_cancel_or_stop_witness :
    ∃ msg, getResource "es" "GOODBYE_MESSAGE" = some msg ∧
      handler ⟨"IntentRequest", "es-ES", "AMAZON.StopIntent", none⟩
        = ⟨[Handler.CancelAndStopIntentHandler], false, Except.ok ⟨some msg, none⟩⟩ :=
  (C9_reprompt_unless_cancel_or_stop ⟨"IntentRequest", "es-ES", "AMAZON.StopIntent", none⟩ "es"
    (Or.inr rfl) (by decide)).2.2.2 rfl (Or.inr rfl)

/-! ## The text of a Number holds no character that the translator escapes -/

theorem escapeChar_numberChar : ∀ c ∈ numberChars, escapeChar c = [c] := by decide

theorem escape_numberText (cs : List Char) (h : NumberText cs) : escape cs = cs := by
  induction cs with
  | nil => rfl
  | cons c cs ih =>
    have hc : escapeChar c = [c] := escapeChar_numberChar c (h c (List.mem_cons_self _ _))
    have ht : NumberText cs := fun d hd => h d (List.mem_cons_of_mem _ hd)
    simp [escape, hc, ih ht]

theorem digitChar_mem (d : Nat) (h : d < 10) : digitChar d ∈ numberChars := by
  interval_cases d <;> decide

theorem numberText_append {a b : List Char} (ha : NumberText a) (hb : NumberText b) :
    NumberText (a ++ b) := by
  intro c hc
  rcases List.mem_append.mp hc with h | h
  · exact ha c h
  · exact hb c h

theorem numberText_cons {c : Char} {a : List Char} (hc : c ∈ numberChars) (ha : NumberText a) :
    NumberText (c :: a) := by
  intro d hd
  rcases List.mem_cons.mp hd with h | h
  · exact h ▸ hc
  · exact ha d h

theorem numberText_replicate_zero (k : Nat) : NumberText (List.replicate k '0') := by
  intro c hc
  have := (List.mem_replicate.mp hc).2
  subst this
  decide

theorem decDigitsAux_numberText (fuel n : Nat) (acc : List Char) (h : NumberText acc) :
    NumberText (decDigitsAux fuel n acc) := by
  induction fuel generalizing n acc with
  | zero => exact h
  | succ fuel ih =>
    simp only [decDigitsAux]
    split
    · exact numberText_cons (digitChar_mem n (by assumption)) h
    · exact ih _ _ (numberText_cons (digitChar_mem _ (Nat.mod_lt _ (by decide))) h)

theorem decDigits_numberText (n : Nat) : NumberText (decDigits n) :=
  decDigitsAux_numberText _ _ _ (fun _ hc => by cases hc)

theorem formatDigits_numberText (ds : List Char) (n : Int) (h : NumberText ds) :
    NumberText (formatDigits ds n) := by
  have hsign : (if n - 1 < 0 then '-' else '+') ∈ numberChars := by split <;> decide
  have hexp : NumberText ('e' :: (if n - 1 < 0 then '-' else '+') :: decDigits (n - 1).natAbs) :=
    numberText_cons (by decide) (numberText_cons hsign (decDigits_numberText _))
  unfold formatDigits
  split
  · exact numberText_append h (numberText_replicate_zero _)
  split
  · exact numberText_append (fun c hc => h c (List.mem_of_mem_take hc))
      (numberText_cons (by decide) (fun c hc => h c (List.mem_of_mem_drop hc)))
  split
  · exact numberText_cons (by decide) (numberText_cons (by decide)
      (numberText_append (numberText_replicate_zero _) h))
  split
  · intro c hc; cases hc
  · exact numberText_cons (h _ (List.mem_cons_self _ _)) hexp
  · rename_i d rest _
    exact numberText_cons (h _ (List.mem_cons_self _ _)) (numberText_cons (by decide)
      (numberText_append (fun c hc => h c (List.mem_cons_of_mem _ hc)) hexp))

theorem positiveToString_numberText (m : Nat) (e : Int) : NumberText (positiveToString m e) := by
  unfold positiveToString
  simp only
  split
  · split
    · exact formatDigits_numberText _ _ (decDigits_numberText _)
    · exact formatDigits_numberText _ _ (decDigits_numberText _)
  · exact formatDigits_numberText _ _ (decDigits_numberText _)

theorem toString_numberText (x : JSNumber) : NumberText x.toString := by
  cases x with
  | nan => decide
  | inf s => cases s <;> decide
  | fin s m e =>
    simp only [JSNumber.toString]
    split
    · decide
    split
    · exact numberText_cons (by decide) (positiveToString_numberText m e)
    · exact positiveToString_numberText m e

theorem fixedDigits_numberText (n f : Nat) : NumberText (fixedDigits n f) := by
  have hm := decDigits_numberText n
  have hmp : NumberText (if (decDigits n).length ≤ f then
      List.replicate (f + 1 - (decDigits n).length) '0' ++ decDigits n else decDigits n) := by
    split
    · exact numberText_append (numberText_replicate_zero _) hm
    · exact hm
  unfold fixedDigits
  simp only
  split
  · exact hmp
  · exact numberText_append (fun c hc => hmp c (List.mem_of_mem_take hc))
      (numberText_cons (by decide) (fun c hc => hmp c (List.mem_of_mem_drop hc)))

theorem toFixed_numberText (x : JSNumber) (f : Nat) : NumberText (x.toFixed f) := by
  cases x with
  | nan => exact toString_numberText JSNumber.nan
  | inf s => exact toString_numberText (JSNumber.inf s)
  | fin s m e =>
    simp only [JSNumber.toFixed]
    split
    · exact toString_numberText _
    split
    · exact numberText_cons (by decide) (fixedDigits_numberText _ _)
    · exact fixedDigits_numberText _ _

/-! ## Decimal digits -/

theorem decDigitsAux_fuel (n : Nat) : ∀ (f1 f2 : Nat) (acc : List Char), n < f1 → n < f2 →
    decDigitsAux f1 n acc = decDigitsAux f2 n acc := by
  induction n using Nat.strong_induction_on with
  | _ n ih =>
    intro f1 f2 acc h1 h2
    obtain ⟨a, rfl⟩ : ∃ a, f1 = a + 1 := ⟨f1 - 1, by omega⟩
    obtain ⟨b, rfl⟩ : ∃ b, f2 = b + 1 := ⟨f2 - 1, by omega⟩
    simp only [decDigitsAux]
    split
    · rfl
    · exact ih (n / 10) (by omega) a b _ (by omega) (by omega)

theorem decDigitsAux_acc (fuel : Nat) : ∀ (n : Nat) (acc : List Char),
    decDigitsAux fuel n acc = decDigitsAux fuel n [] ++ acc := by
  induction fuel with
  | zero => intro n acc; rfl
  | succ fuel ih =>
    intro n acc
    simp only [decDigitsAux]
    split
    · rfl
    · rw [ih (n / 10) (digitChar (n % 10) :: acc), ih (n / 10) [digitChar (n % 10)]]
      simp

theorem decDigits_lt (n : Nat) (h : n < 10) : decDigits n = [digitChar n] := by
  simp [decDigits, decDigitsAux, h]

theorem decDigits_ge (n : Nat) (h : 10 ≤ n) :
    decDigits n = decDigits (n / 10) ++ [digitChar (n % 10)] := by
  have h1 : ¬ n < 10 := by omega
  have h2 : decDigits n = decDigitsAux n (n / 10) [digitChar (n % 10)] := by
    simp only [decDigits, decDigitsAux, h1, if_false]
  rw [h2, decDigitsAux_fuel (n / 10) n (n / 10 + 1) _ (by omega) (by omega), decDigitsAux_acc]
  rfl

theorem decDigits_length_pos (n : Nat) : 0 < (decDigits n).length := by
  by_cases h : n < 10
  · simp [decDigits_lt n h]
  · simp [decDigits_ge n (by omega)]

theorem fixedDigits_two (n : Nat) : fixedDigits n 2 = twoDecimalNumeral false n := by
  have h0 : digitChar 0 = '0' := by decide
  simp only [twoDecimalNumeral, Bool.false_eq_true, if_false, List.nil_append]
  by_cases h1 : n < 10
  · have e1 : n / 100 = 0 := by omega
    have e2 : n / 10 % 10 = 0 := by omega
    have e3 : n % 10 = n := by omega
    rw [e1, e2, e3, decDigits_lt 0 (by decide), h0]
    simp [fixedDigits, decDigits_lt n h1, List.replicate]
  · by_cases h2 : n < 100
    · have e1 : n / 100 = 0 := by omega
      have e2 : n / 10 % 10 = n / 10 := by omega
      rw [e1, e2, decDigits_lt 0 (by decide), h0]
      simp [fixedDigits, decDigits_ge n (by omega), decDigits_lt (n / 10) (by omega),
        List.replicate]
    · have e1 : n / 10 / 10 = n / 100 := by omega
      have hl := decDigits_length_pos (n / 100)
      have hm : decDigits n
          = decDigits (n / 100) ++ [digitChar (n / 10 % 10), digitChar (n % 10)] := by
        rw [decDigits_ge n (by omega), decDigits_ge (n / 10) (by omega), e1]
        simp
      have hlen : (decDigits n).length = (decDigits (n / 100)).length + 2 := by
        rw [hm]; simp
      have hnot : ¬ (decDigits n).length ≤ 2 := by omega
      simp only [fixedDigits, hnot, if_false]
      have hk : (decDigits n).length - 2 = (decDigits (n / 100)).length := by omega
      rw [hk, hm]
      simp

/-! ## `toFixed(2)` rounds to two decimals -/

theorem scale_den_pos (p q : Nat) (e : Int) (hq : 0 < q) : 0 < (scale p q e).2 := by
  cases e with
  | ofNat k => simp only [scale]; positivity
  | negSucc k => simpa only [scale] using hq

theorem scale_val (p q : Nat) (e : Int) (hq : 0 < q) :
    ((scale p q e).1 : ℚ) / ((scale p q e).2 : ℚ) = (p : ℚ) / q / (2 : ℚ) ^ e := by
  have hq' : (q : ℚ) ≠ 0 := by positivity
  cases e with
  | ofNat k =>
    simp only [scale, Int.ofNat_eq_coe, zpow_natCast]
    push_cast
    field_simp
  | negSucc k =>
    simp only [scale, zpow_negSucc]
    push_cast
    field_simp

theorem scale_one_val (m : Nat) (e : Int) :
    ((scale m 1 (-e)).1 : ℚ) / ((scale m 1 (-e)).2 : ℚ) = (m : ℚ) * (2 : ℚ) ^ e := by
  rw [scale_val m 1 (-e) (by decide), zpow_neg]
  simp

theorem nearest_hundredth (p q : Nat) (hq : 0 < q) :
    |(((2 * p * 10 ^ 2 + q) / (2 * q) : Nat) : ℚ) / 100 - (p : ℚ) / q| ≤ 1 / 200 := by
  generalize hN : (2 * p * 10 ^ 2 + q) / (2 * q) = N
  have h2q : 0 < 2 * q := by omega
  have hle : N * (2 * q) ≤ 2 * p * 10 ^ 2 + q := by
    rw [← hN]; exact Nat.div_mul_le_self _ _
  have hlt : 2 * p * 10 ^ 2 + q < (N + 1) * (2 * q) := by
    rw [← hN]; exact (Nat.div_lt_iff_lt_mul h2q).mp (Nat.lt_succ_self _)
  have hq' : (0 : ℚ) < q := by exact_mod_cast hq
  have hle' : (N : ℚ) * (2 * q) ≤ 2 * p * 10 ^ 2 + q := by exact_mod_cast hle
  have hlt' : (2 * p * 10 ^ 2 + q : ℚ) < (N + 1) * (2 * q) := by exact_mod_cast hlt
  have hr : (p : ℚ) / q * q = p := by field_simp
  generalize (p : ℚ) / q = r at hr ⊢
  rw [← hr] at hle' hlt'
  have h1 : (2 * (N : ℚ)) * q ≤ (200 * r + 1) * q := by nlinarith
  have h2 : (200 * r + 1) * q < (2 * (N : ℚ) + 2) * q := by nlinarith
  have h1' := le_of_mul_le_mul_right h1 hq'
  have h2' := lt_of_mul_lt_mul_right h2 hq'.le
  rw [abs_le]
  constructor <;> linarith

theorem toFixed_two_rounded (x : JSNumber) (hfin : x.isFinite = true)
    (hlt : |x.toRat| < 10 ^ 21) : RoundedToTwoDecimals (x.toFixed 2) x := by
  cases x with
  | nan => simp [JSNumber.isFinite] at hfin
  | inf s => simp [JSNumber.isFinite] at hfin
  | fin s m e =>
    refine ⟨hfin, ?_⟩
    have hQ := scale_den_pos m 1 (-e) (by decide)
    have hval := scale_one_val m e
    have hnear := nearest_hundredth (scale m 1 (-e)).1 (scale m 1 (-e)).2 hQ
    rw [hval] at hnear
    have hpow : (0 : ℚ) < (2 : ℚ) ^ e := by positivity
    have habs : |(JSNumber.fin s m e).toRat| = (m : ℚ) * (2 : ℚ) ^ e := by
      have hnn : (0 : ℚ) ≤ (m : ℚ) * (2 : ℚ) ^ e := by positivity
      cases s
      · simp only [JSNumber.toRat, Bool.false_eq_true, if_false, one_mul]
        exact abs_of_nonneg hnn
      · simp only [JSNumber.toRat, if_true, neg_mul, one_mul, abs_neg]
        exact abs_of_nonneg hnn
    rw [habs, ← hval] at hlt
    have hguard : ¬ 10 ^ 21 * (scale m 1 (-e)).2 ≤ (scale m 1 (-e)).1 := by
      intro hge
      have hQ' : (0 : ℚ) < (scale m 1 (-e)).2 := by exact_mod_cast hQ
      have : (10 ^ 21 * ((scale m 1 (-e)).2 : ℚ)) ≤ (scale m 1 (-e)).1 := by exact_mod_cast hge
      rw [div_lt_iff₀ hQ'] at hlt
      linarith
    simp only [JSNumber.toFixed, hguard, if_false, fixedDigits_two]
    generalize (2 * (scale m 1 (-e)).1 * 10 ^ 2 + (scale m 1 (-e)).2) /
      (2 * (scale m 1 (-e)).2) = N at hnear ⊢
    by_cases hs : s = true ∧ m ≠ 0
    · refine ⟨true, N, ?_, ?_⟩
      · simp only [hs, ne_eq, not_false_eq_true, and_self, if_true]
        simp [twoDecimalNumeral]
      · obtain ⟨hs1, _⟩ := hs
        subst hs1
        simp only [JSNumber.toRat, if_true]
        rw [show (-1 : ℚ) * ((N : ℚ) / 100) - (-1) * (m : ℚ) * (2 : ℚ) ^ e
            = -((N : ℚ) / 100 - (m : ℚ) * (2 : ℚ) ^ e) by ring, abs_neg]
        exact hnear
    · refine ⟨false, N, ?_, ?_⟩
      · simp only [hs, if_false]
      · simp only [Bool.false_eq_true, if_false, one_mul]
        by_cases hm : m = 0
        · subst hm
          simp only [JSNumber.toRat, Nat.cast_zero, mul_zero, zero_mul] at hnear ⊢
          exact hnear
        · have hs' : s = false := by
            cases s
            · rfl
            · exact absurd ⟨rfl, hm⟩ hs
          subst hs'
          simp only [JSNumber.toRat, Bool.false_eq_true, if_false, one_mul]
          exact hnear

/-! ## The conversion handlers -/

theorem translate_celsius (farent celsius : JSNumber) :
    translate "en" "CELSIUS_CONVERSION"
      [("degreesFarent", InterpValue.number farent),
       ("degreesCent", InterpValue.string (celsius.toFixed 2))]
      = celsiusSentence farent.toString (celsius.toFixed 2) := by
  have h : translate "en" "CELSIUS_CONVERSION"
      [("degreesFarent", InterpValue.number farent),
       ("degreesCent", InterpValue.string (celsius.toFixed 2))]
      = celsiusSentence (escape farent.toString) (escape (celsius.toFixed 2)) := rfl
  rw [h, escape_numberText _ (toString_numberText _), escape_numberText _ (toFixed_numberText _ _)]

theorem translate_fahrenheit (cent fahrenheit : JSNumber) :
    translate "es" "FAHRENHEIT_CONVERSION"
      [("degreesCent", InterpValue.number cent),
       ("degreesFarent", InterpValue.string (fahrenheit.toFixed 2))]
      = fahrenheitSentence cent.toString (fahrenheit.toFixed 2) := by
  have h : translate "es" "FAHRENHEIT_CONVERSION"
      [("degreesCent", InterpValue.number cent),
       ("degreesFarent", InterpValue.string (fahrenheit.toFixed 2))]
      = fahrenheitSentence (escape cent.toString) (escape (fahrenheit.toFixed 2)) := rfl
  rw [h, escape_numberText _ (toString_numberText _), escape_numberText _ (toFixed_numberText _ _)]

theorem DatosF_handle (env : RequestEnvelope) (v : JSValue)
    (hv : getSlotValue env "farent" = Except.ok v) :
    DatosFIntentHandler.handle (LocalizationInterceptor.process env)
      = Except.ok ⟨some ((LocalizationInterceptor.process env).t "CELSIUS_CONVERSION"
          [("degreesFarent", InterpValue.number (parseFloat v)),
           ("degreesCent", InterpValue.string (((parseFloat v - 32) * 5 / 9).toFixed 2))]),
          none⟩ := by
  have hv' : getSlotValue (LocalizationInterceptor.process env).requestEnvelope "farent"
      = Except.ok v := hv
  simp only [DatosFIntentHandler.handle, hv', bind, Except.bind, pure, Except.pure,
    responseBuilder, Response.speakText, Response.getResponse]

theorem DatosC_handle (env : RequestEnvelope) (v : JSValue)
    (hv : getSlotValue env "cent" = Except.ok v) :
    DatosCIntentHandler.handle (LocalizationInterceptor.process env)
      = Except.ok ⟨some ((LocalizationInterceptor.process env).t "FAHRENHEIT_CONVERSION"
          [("degreesCent", InterpValue.number (parseFloat v)),
           ("degreesFarent", InterpValue.string ((parseFloat v * 9 / 5 + 32).toFixed 2))]),
          none⟩ := by
  have hv' : getSlotValue (LocalizationInterceptor.process env).requestEnvelope "cent"
      = Except.ok v := hv
  simp only [DatosCIntentHandler.handle, hv', bind, Except.bind, pure, Except.pure,
    responseBuilder, Response.speakText, Response.getResponse]

theorem handler_faren (env : RequestEnvelope) (htype : env.type = "IntentRequest")
    (hname : env.intentName = "FarenIntent") (v : JSValue)
    (hv : getSlotValue env "farent" = Except.ok v) :
    handler env = ⟨[Handler.DatosFIntentHandler], false,
      Except.ok ⟨some ((LocalizationInterceptor.process env).t "CELSIUS_CONVERSION"
          [("degreesFarent", InterpValue.number (parseFloat v)),
           ("degreesCent", InterpValue.string (((parseFloat v - 32) * 5 / 9).toFixed 2))]),
          none⟩⟩ := by
  apply handler_of_handled
  · rw [getRequestHandler_intent env htype, hname]; rfl
  · exact DatosF_handle env v hv

theorem handler_cent (env : RequestEnvelope) (htype : env.type = "IntentRequest")
    (hname : env.intentName = "centIntent") (v : JSValue)
    (hv : getSlotValue env "cent" = Except.ok v) :
    handler env = ⟨[Handler.DatosCIntentHandler], false,
      Except.ok ⟨some ((LocalizationInterceptor.process env).t "FAHRENHEIT_CONVERSION"
          [("degreesCent", InterpValue.number (parseFloat v)),
           ("degreesFarent", InterpValue.string ((parseFloat v * 9 / 5 + 32).toFixed 2))]),
          none⟩⟩ := by
  apply handler_of_handled
  · rw [getRequestHandler_intent env htype, hname]; rfl
  · exact DatosC_handle env v hv

theorem twoDecimalNumeral_point (neg : Bool) (n : Nat) :
    (twoDecimalNumeral neg n).reverse.get? 2 = some '.' := by
  simp [twoDecimalNumeral]

theorem celsiusSentence_inj (a d1 d2 : List Char)
    (h : celsiusSentence a d1 = celsiusSentence a d2) : d1 = d2 := by
  have h0 : a ++ (" Fahrenheit is equal to ".data ++ (d1 ++ " degrees Celsius.".data))
      = a ++ (" Fahrenheit is equal to ".data ++ (d2 ++ " degrees Celsius.".data)) :=
    congrArg String.data h
  exact List.append_cancel_right (List.append_cancel_left (List.append_cancel_left h0))

theorem fahrenheitSentence_inj (a d1 d2 : List Char)
    (h : fahrenheitSentence a d1 = fahrenheitSentence a d2) : d1 = d2 := by
  have h0 : a ++ (" Centigrados son ".data ++ (d1 ++ " grados Fahrenheit.".data))
      = a ++ (" Centigrados son ".data ++ (d2 ++ " grados Fahrenheit.".data)) :=
    congrArg String.data h
  exact List.append_cancel_right (List.append_cancel_left (List.append_cancel_left h0))

set_option maxRecDepth 100000 in
/-- C1, as stated, fails: the slot value `1800000000000000000000` parses to a
Number, and the handler speaks `1.8e+21 Fahrenheit is equal to 1e+21 degrees Celsius.`, where
the Celsius quantity is not rounded to two decimal places. -/
theorem C1_counterexample :
    DatosFIntentHandler.handle (LocalizationInterceptor.process
        ⟨"IntentRequest", "en-US", "FarenIntent",
          some [("farent", JSValue.string "1800000000000000000000")]⟩)
      = Except.ok ⟨some "1.8e+21 Fahrenheit is equal to 1e+21 degrees Celsius.", none⟩ ∧
    ¬ FarenClaim
      ⟨"IntentRequest", "en-US", "FarenIntent",
        some [("farent", JSValue.string "1800000000000000000000")]⟩ := by
  have hres : DatosFIntentHandler.handle (LocalizationInterceptor.process
        ⟨"IntentRequest", "en-US", "FarenIntent",
          some [("farent", JSValue.string "1800000000000000000000")]⟩)
      = Except.ok ⟨some "1.8e+21 Fahrenheit is equal to 1e+21 degrees Celsius.", none⟩ := by
    rfl
  refine ⟨hres, ?_⟩
  intro h
  obtain ⟨d, ⟨_, neg, n, hd, _⟩, heq⟩ :=
    h (JSValue.string "1800000000000000000000") rfl (by decide)
  rw [hres] at heq
  have hs : (parseFloat (JSValue.string "1800000000000000000000")).toString
      = "1.8e+21".data := by decide
  rw [hs] at heq
  have h2 : celsiusSentence "1.8e+21".data "1e+21".data = celsiusSentence "1.8e+21".data d := by
    have := congrArg Response.speak (Except.ok.inj heq)
    simpa using this
  have h3 := celsiusSentence_inj _ _ _ h2
  have h4 := twoDecimalNumeral_point neg n
  rw [← hd, ← h3] at h4
  revert h4
  decide

set_option maxRecDepth 100000 in
/-- C1, amended: a `FarenIntent` request in a locale of language `en` is
handled by `DatosFIntentHandler`, which speaks the `CELSIUS_CONVERSION` sentence
with `degreesFarent` the text of the parsed Number `f` and `degreesCent` the
text `((f - 32) * 5 / 9).toFixed(2)` of the conversion computed in binary64
arithmetic, and gives no reprompt; that text is the conversion rounded to
exactly two decimal places whenever the conversion is finite and below
`10 ^ 21` in absolute value; for `farent = "212"` the spoken text is
`212 Fahrenheit is equal to 100.00 degrees Celsius.` -/
theorem C1_faren_intent_speaks_celsius :
    (∀ (env : RequestEnvelope) (v : JSValue),
      env.type = "IntentRequest" → env.intentName = "FarenIntent" →
      getLanguagePartFromCode env.locale = "en" →
      getSlotValue env "farent" = Except.ok v →
      (handler env).handled = [Handler.DatosFIntentHandler] ∧
      DatosFIntentHandler.handle (LocalizationInterceptor.process env)
        = Except.ok ⟨some (celsiusSentence (parseFloat v).toString
            (((parseFloat v - 32) * 5 / 9).toFixed 2)), none⟩ ∧
      (((parseFloat v - 32) * 5 / 9).isFinite = true →
        |((parseFloat v - 32) * 5 / 9).toRat| < 10 ^ 21 →
        RoundedToTwoDecimals (((parseFloat v - 32) * 5 / 9).toFixed 2)
          ((parseFloat v - 32) * 5 / 9))) ∧
    DatosFIntentHandler.handle (LocalizationInterceptor.process
        ⟨"IntentRequest", "en-US", "FarenIntent", some [("farent", JSValue.string "212")]⟩)
      = Except.ok ⟨some "212 Fahrenheit is equal to 100.00 degrees Celsius.", none⟩ := by
  refine ⟨?_, rfl⟩
  intro env v htype hname hloc hv
  refine ⟨?_, ?_, fun hfin hlt => toFixed_two_rounded _ hfin hlt⟩
  · rw [handler_faren env htype hname v hv]
  · rw [DatosF_handle env v hv, process_t env "en" _ _ (Or.inl rfl) hloc, translate_celsius]

set_option maxRecDepth 100000 in
theorem C1_faren_intent_speaks_celsius_witness :
    RoundedToTwoDecimals
      (((parseFloat (JSValue.string "98.6") - 32) * 5 / 9).toFixed 2)
      ((parseFloat (JSValue.string "98.6") - 32) * 5 / 9) :=
  (C1_faren_intent_speaks_celsius.1
    ⟨"IntentRequest", "en-US", "FarenIntent", some [("farent", JSValue.string "98.6")]⟩
    (JSValue.string "98.6") rfl rfl (by decide) rfl).2.2
    (by decide)
    (by
      rw [show (parseFloat (JSValue.string "98.6") - 32) * 5 / 9
          = JSNumber.fin false 5207287069147136 (-47) from by decide]
      norm_num [JSNumber.toRat, abs_lt])

set_option maxRecDepth 100000 in
/-- C2, as stated, fails: the slot value `1000000000000000000000` parses to a
Number, and the handler speaks `1e+21 Centigrados son 1.8e+21 grados Fahrenheit.`, where the
Fahrenheit quantity is not rounded to two decimal places. -/
theorem C2_counterexample :
    DatosCIntentHandler.handle (LocalizationInterceptor.process
        ⟨"IntentRequest", "es-ES", "centIntent",
          some [("cent", JSValue.string "1000000000000000000000")]⟩)
      = Except.ok ⟨some "1e+21 Centigrados son 1.8e+21 grados Fahrenheit.", none⟩ ∧
    ¬ CentClaim
      ⟨"IntentRequest", "es-ES", "centIntent",
        some [("cent", JSValue.string "1000000000000000000000")]⟩ := by
  have hres : DatosCIntentHandler.handle (LocalizationInterceptor.process
        ⟨"IntentRequest", "es-ES", "centIntent",
          some [("cent", JSValue.string "1000000000000000000000")]⟩)
      = Except.ok ⟨some "1e+21 Centigrados son 1.8e+21 grados Fahrenheit.", none⟩ := by
    rfl
  refine ⟨hres, ?_⟩
  intro h
  obtain ⟨d, ⟨_, neg, n, hd, _⟩, heq⟩ :=
    h (JSValue.string "1000000000000000000000") rfl (by decide)
  rw [hres] at heq
  have hs : (parseFloat (JSValue.string "1000000000000000000000")).toString
      = "1e+21".data := by decide
  rw [hs] at heq
  have h2 : fahrenheitSentence "1e+21".data "1.8e+21".data
      = fahrenheitSentence "1e+21".data d := by
    have := congrArg Response.speak (Except.ok.inj heq)
    simpa using this
  have h3 := fahrenheitSentence_inj _ _ _ h2
  have h4 := twoDecimalNumeral_point neg n
  rw [← hd, ← h3] at h4
  revert h4
  decide

set_option exponentiation.threshold 2000 in
set_option maxRecDepth 100000 in
/-- C2, amended: a `centIntent` request in a locale of language `es` is handled
by `DatosCIntentHandler`, which speaks the `FAHRENHEIT_CONVERSION` sentence with
`degreesCent` the text of the parsed Number `c` and `degreesFarent` the text
`(c * 9 / 5 + 32).toFixed(2)` of the conversion computed in binary64
arithmetic, with no reprompt; that text is the conversion rounded to exactly
two decimal places whenever the conversion is finite and below `10 ^ 21` in
absolute value; for `cent = "0"` the spoken text is
`0 Centigrados son 32.00 grados Fahrenheit.` -/
theorem C2_cent_intent_speaks_fahrenheit :
    (∀ (env : RequestEnvelope) (v : JSValue),
      env.type = "IntentRequest" → env.intentName = "centIntent" →
      getLanguagePartFromCode env.locale = "es" →
      getSlotValue env "cent" = Except.ok v →
      (handler env).handled = [Handler.DatosCIntentHandler] ∧
      DatosCIntentHandler.handle (LocalizationInterceptor.process env)
        = Except.ok ⟨some (fahrenheitSentence (parseFloat v).toString
            ((parseFloat v * 9 / 5 + 32).toFixed 2)), none⟩ ∧
      ((parseFloat v * 9 / 5 + 32).isFinite = true →
        |(parseFloat v * 9 / 5 + 32).toRat| < 10 ^ 21 →
        RoundedToTwoDecimals ((parseFloat v * 9 / 5 + 32).toFixed 2)
          (parseFloat v * 9 / 5 + 32))) ∧
    DatosCIntentHandler.handle (LocalizationInterceptor.process
        ⟨"IntentRequest", "es-ES", "centIntent", some [("cent", JSValue.string "0")]⟩)
      = Except.ok ⟨some "0 Centigrados son 32.00 grados Fahrenheit.", none⟩ := by
  refine ⟨?_, rfl⟩
  intro env v htype hname hloc hv
  refine ⟨?_, ?_, fun hfin hlt => toFixed_two_rounded _ hfin hlt⟩
  · rw [handler_cent env htype hname v hv]
  · rw [DatosC_handle env v hv, process_t env "es" _ _ (Or.inr rfl) hloc, translate_fahrenheit]

set_option maxRecDepth 100000 in
theorem C2_cent_intent_speaks_fahrenheit_witness :
    RoundedToTwoDecimals
      ((parseFloat (JSValue.string "37.5") * 9 / 5 + 32).toFixed 2)
      (parseFloat (JSValue.string "37.5") * 9 / 5 + 32) :=
  (C2_cent_intent_speaks_fahrenheit.1
    ⟨"IntentRequest", "es-MX", "centIntent", some [("cent", JSValue.string "37.5")]⟩
    (JSValue.string "37.5") rfl rfl (by decide) rfl).2.2
    (by decide)
    (by
      rw [show parseFloat (JSValue.string "37.5") * 9 / 5 + 32
          = JSNumber.fin false 7001690045677568 (-46) from by decide]
      norm_num [JSNumber.toRat, abs_lt])

set_option maxRecDepth 100000 in
/-- C4, as stated, fails: a `centIntent` request in `es-ES` without slots is
answered by `DatosCIntentHandler` with the sentence
`NaN Centigrados son NaN grados Fahrenheit.`; the error handler does not run. -/
theorem C4_counterexample :
    parseFloat JSValue.null = JSNumber.nan ∧
    handler ⟨"IntentRequest", "es-ES", "centIntent", none⟩
      = ⟨[Handler.DatosCIntentHandler], false,
          Except.ok ⟨some "NaN Centigrados son NaN grados Fahrenheit.", none⟩⟩ ∧
    ¬ UnparsedSlotClaim ⟨"IntentRequest", "es-ES", "centIntent", none⟩ := by
  have hres : handler ⟨"IntentRequest", "es-ES", "centIntent", none⟩
      = ⟨[Handler.DatosCIntentHandler], false,
          Except.ok ⟨some "NaN Centigrados son NaN grados Fahrenheit.", none⟩⟩ := rfl
  refine ⟨by decide, hres, ?_⟩
  intro h
  have h1 := (h "es" _ (by decide) rfl).1
  rw [hres] at h1
  exact absurd h1 (by decide)

set_option maxRecDepth 100000 in
/-- C4, amended: a `centIntent` or `FarenIntent` request whose slot is missing
or does not parse to a Number (`parseFloat` gives `NaN`) is answered by its
conversion handler, which does not throw: the error handler does not run, and
the response has a spoken text and no reprompt.  In a locale of language `es`
the text for `centIntent` is `NaN Centigrados son NaN grados Fahrenheit.`, and
in a locale of language `en` the text for `FarenIntent` is
`NaN Fahrenheit is equal to NaN degrees Celsius.` -/
theorem C4_unparsed_slot_is_rendered :
    parseFloat JSValue.null = JSNumber.nan ∧
    parseFloat JSValue.undefined = JSNumber.nan ∧
    (∀ (env : RequestEnvelope) (slotName : String), env.type = "IntentRequest" →
      (env.slots = none ∨ ∃ sl, env.slots = some sl ∧ sl.lookup slotName = none) →
      getSlotValue env slotName = Except.ok JSValue.null) ∧
    (∀ (env : RequestEnvelope) (v : JSValue), env.type = "IntentRequest" →
      env.intentName = "centIntent" → getSlotValue env "cent" = Except.ok v →
      parseFloat v = JSNumber.nan →
      (∃ text, handler env
        = ⟨[Handler.DatosCIntentHandler], false, Except.ok ⟨some text, none⟩⟩) ∧
      (getLanguagePartFromCode env.locale = "es" →
        handler env = ⟨[Handler.DatosCIntentHandler], false,
          Except.ok ⟨some "NaN Centigrados son NaN grados Fahrenheit.", none⟩⟩)) ∧
    (∀ (env : RequestEnvelope) (v : JSValue), env.type = "IntentRequest" →
      env.intentName = "FarenIntent" → getSlotValue env "farent" = Except.ok v →
      parseFloat v = JSNumber.nan →
      (∃ text, handler env
        = ⟨[Handler.DatosFIntentHandler], false, Except.ok ⟨some text, none⟩⟩) ∧
      (getLanguagePartFromCode env.locale = "en" →
        handler env = ⟨[Handler.DatosFIntentHandler], false,
          Except.ok ⟨some "NaN Fahrenheit is equal to NaN degrees Celsius.", none⟩⟩)) := by
  refine ⟨by decide, by decide, ?_, ?_, ?_⟩
  · intro env slotName htype hs
    rcases hs with hs | ⟨sl, hs, hl⟩
    · simp [getSlotValue, getRequestType, htype, hs, pure, Except.pure]
    · simp [getSlotValue, getRequestType, htype, hs, hl, pure, Except.pure]
  · intro env v htype hname hv hnan
    refine ⟨⟨_, handler_cent env htype hname v hv⟩, ?_⟩
    intro hloc
    rw [handler_cent env htype hname v hv, process_t env "es" _ _ (Or.inr rfl) hloc, hnan]
    rfl
  · intro env v htype hname hv hnan
    refine ⟨⟨_, handler_faren env htype hname v hv⟩, ?_⟩
    intro hloc
    rw [handler_faren env htype hname v hv, process_t env "en" _ _ (Or.inl rfl) hloc, hnan]
    rfl

set_option maxRecDepth 100000 in
theorem C4_unparsed_slot_is_rendered_witness :
    handler ⟨"IntentRequest", "en-US", "FarenIntent", some [("farent", JSValue.string "?")]⟩
      = ⟨[Handler.DatosFIntentHandler], false,
          Except.ok ⟨some "NaN Fahrenheit is equal to NaN degrees Celsius.", none⟩⟩ :=
  (C4_unparsed_slot_is_rendered.2.2.2.2
    ⟨"IntentRequest", "en-US", "FarenIntent", some [("farent", JSValue.string "?")]⟩
    (JSValue.string "?") rfl rfl rfl (by decide)).2 (by decide)

/-! ## Rounding error of the binary64 operations -/

theorem bitLenAux_spec (fuel : Nat) : ∀ n : Nat, n ≤ fuel → 0 < n →
    0 < bitLenAux fuel n ∧ 2 ^ (bitLenAux fuel n - 1) ≤ n ∧ n < 2 ^ bitLenAux fuel n := by
  induction fuel with
  | zero => intro n h1 h2; omega
  | succ fuel ih =>
    intro n h1 h2
    have hn : n ≠ 0 := by omega
    simp only [bitLenAux, hn, if_false]
    by_cases h : n / 2 = 0
    · have hn1 : n = 1 := by omega
      subst hn1
      have h0 : bitLenAux fuel (1 / 2) = 0 := by
        cases fuel <;> simp [bitLenAux]
      rw [h0]
      simp
    · obtain ⟨hb, hlo, hhi⟩ := ih (n / 2) (by omega) (by omega)
      generalize bitLenAux fuel (n / 2) = b at hb hlo hhi
      obtain ⟨b', rfl⟩ : ∃ b', b = b' + 1 := ⟨b - 1, by omega⟩
      simp only [Nat.add_sub_cancel] at hlo ⊢
      refine ⟨by omega, ?_, ?_⟩
      · rw [pow_succ]; omega
      · rw [pow_succ]; omega

theorem bitLen_spec (n : Nat) (h : 0 < n) :
    0 < bitLen n ∧ 2 ^ (bitLen n - 1) ≤ n ∧ n < 2 ^ bitLen n :=
  bitLenAux_spec n n (Nat.le_refl n) h

theorem bitLen_bounds (n : Nat) (h : 0 < n) :
    (2 : ℚ) ^ ((bitLen n : Int) - 1) ≤ (n : ℚ) ∧ (n : ℚ) < (2 : ℚ) ^ (bitLen n : Int) := by
  obtain ⟨hb, hlo, hhi⟩ := bitLen_spec n h
  constructor
  · have e : ((bitLen n : Int) - 1) = ((bitLen n - 1 : Nat) : Int) := by omega
    rw [e, zpow_natCast]
    exact_mod_cast hlo
  · rw [zpow_natCast]
    exact_mod_cast hhi

theorem roundingExponent_le (p q : Nat) (hp : 0 < p) (hq : 0 < q) (k : Int)
    (hk1 : -1021 ≤ k) (hlt : (p : ℚ) / q < (2 : ℚ) ^ k) :
    roundingExponent p q ≤ k - 53 := by
  have hq' : (0 : ℚ) < q := by exact_mod_cast hq
  have h2 : (1 : ℚ) < 2 := by norm_num
  have h20 : (2 : ℚ) ≠ 0 := by norm_num
  obtain ⟨hplo, _⟩ := bitLen_bounds p hp
  obtain ⟨_, hqhi⟩ := bitLen_bounds q hq
  -- the quotient is above `2 ^ (eHi + 51)`
  have hB : (2 : ℚ) ^ ((bitLen p : Int) - (bitLen q : Int) - 52 - 1 + 52) ≤ (p : ℚ) / q := by
    have e : (bitLen p : Int) - (bitLen q : Int) - 52 - 1 + 52
        = ((bitLen p : Int) - 1) - (bitLen q : Int) := by ring
    rw [e, zpow_sub₀ h20, div_le_div_iff₀ (by positivity) hq']
    have h3 : (0 : ℚ) < (2 : ℚ) ^ ((bitLen p : Int) - 1) := by positivity
    nlinarith
  have key : ∀ e1 : Int, (2 : ℚ) ^ (e1 + 52) ≤ (p : ℚ) / q →
      (if e1 < -1074 then -1074 else e1) ≤ k - 53 := by
    intro e1 he1
    have : e1 + 52 < k := (zpow_lt_zpow_iff_right₀ h2).mp (lt_of_le_of_lt he1 hlt)
    split <;> omega
  unfold roundingExponent
  simp only
  apply key
  split
  · exact hB
  · rename_i hc
    have hden := scale_den_pos p q ((bitLen p : Int) - (bitLen q : Int) - 52) hq
    have hden' : (0 : ℚ) < ((scale p q ((bitLen p : Int) - (bitLen q : Int) - 52)).2 : ℚ) := by
      exact_mod_cast hden
    have hge : ((scale p q ((bitLen p : Int) - (bitLen q : Int) - 52)).2 : ℚ) * 2 ^ 52
        ≤ ((scale p q ((bitLen p : Int) - (bitLen q : Int) - 52)).1 : ℚ) := by
      exact_mod_cast Nat.le_of_not_lt hc
    have hv := scale_val p q ((bitLen p : Int) - (bitLen q : Int) - 52) hq
    have h4 : (2 : ℚ) ^ 52 ≤ (p : ℚ) / q / (2 : ℚ) ^ ((bitLen p : Int) - (bitLen q : Int) - 52) := by
      rw [← hv, le_div_iff₀ hden']
      linarith
    rw [zpow_add₀ h20]
    rw [le_div_iff₀ (by positivity)] at h4
    have e52 : (2 : ℚ) ^ (52 : Int) = (2 : ℚ) ^ (52 : Nat) := by norm_cast
    rw [e52]
    linarith

theorem roundedSignificand_near (p q : Nat) (hq : 0 < q) (e : Int) :
    |((roundedSignificand p q e : Nat) : ℚ) - (p : ℚ) / q / (2 : ℚ) ^ e| ≤ 1 / 2 := by
  rw [← scale_val p q e hq]
  have hden := scale_den_pos p q e hq
  unfold roundedSignificand
  simp only
  generalize (scale p q e).1 = num
  generalize (scale p q e).2 = den at hden
  have hden' : (0 : ℚ) < den := by exact_mod_cast hden
  have hdm : den * (num / den) + num % den = num := Nat.div_add_mod num den
  have hr : num % den < den := Nat.mod_lt _ hden
  have hy : (num : ℚ) / den = ((num / den : Nat) : ℚ) + ((num % den : Nat) : ℚ) / den := by
    have : (num : ℚ) = (den : ℚ) * ((num / den : Nat) : ℚ) + ((num % den : Nat) : ℚ) := by
      exact_mod_cast hdm.symm
    field_simp
    linarith
  have hr' : ((num % den : Nat) : ℚ) < den := by exact_mod_cast hr
  have hr0 : (0 : ℚ) ≤ ((num % den : Nat) : ℚ) := by positivity
  rw [hy, abs_le]
  split
  · rename_i hc
    have h2r : den ≤ 2 * (num % den) := by
      rcases hc with h | ⟨h, _⟩ <;> omega
    have h2r' : (den : ℚ) ≤ 2 * ((num % den : Nat) : ℚ) := by exact_mod_cast h2r
    have hfrac : (1 : ℚ) / 2 ≤ ((num % den : Nat) : ℚ) / den := by
      rw [le_div_iff₀ hden']; linarith
    have hfrac1 : ((num % den : Nat) : ℚ) / den < 1 := by
      rw [div_lt_iff₀ hden']; linarith
    push_cast
    constructor <;> linarith
  · rename_i hc
    have h2r : 2 * (num % den) ≤ den := by
      by_contra hcon
      exact hc (Or.inl (by omega))
    have h2r' : 2 * ((num % den : Nat) : ℚ) ≤ (den : ℚ) := by exact_mod_cast h2r
    have hfrac : ((num % den : Nat) : ℚ) / den ≤ 1 / 2 := by
      rw [div_le_iff₀ hden']; linarith
    have hfrac0 : (0 : ℚ) ≤ ((num % den : Nat) : ℚ) / den := by positivity
    constructor <;> linarith

theorem packNumber_spec (neg : Bool) (m : Nat) (e : Int) (he : e ≤ 970) :
    ∃ m' e', packNumber neg m e = JSNumber.fin neg m' e' ∧
      (m' : ℚ) * (2 : ℚ) ^ e' = (m : ℚ) * (2 : ℚ) ^ e := by
  unfold packNumber
  by_cases hm : m = 2 ^ 53
  · have h1 : ¬ (971 < e + 1) := by omega
    simp only [hm, if_true, h1, if_false]
    refine ⟨_, _, rfl, ?_⟩
    rw [zpow_add_one₀ (by norm_num : (2 : ℚ) ≠ 0)]
    push_cast
    ring
  · have h1 : ¬ (971 < e) := by omega
    simp only [hm, if_false, h1]
    exact ⟨_, _, rfl, rfl⟩

theorem roundPos_spec (neg : Bool) (p q : Nat) (hp : 0 < p) (hq : 0 < q) (k : Int)
    (hk1 : -1021 ≤ k) (hk2 : k ≤ 1023) (hlt : (p : ℚ) / q < (2 : ℚ) ^ k) :
    ∃ m e, roundPos neg p q = JSNumber.fin neg m e ∧
      |(m : ℚ) * (2 : ℚ) ^ e - (p : ℚ) / q| ≤ (2 : ℚ) ^ (k - 54) := by
  have he := roundingExponent_le p q hp hq k hk1 hlt
  have hnear := roundedSignificand_near p q hq (roundingExponent p q)
  obtain ⟨m', e', hpk, hv⟩ := packNumber_spec neg
    (roundedSignificand p q (roundingExponent p q)) (roundingExponent p q) (by omega)
  refine ⟨m', e', hpk, ?_⟩
  rw [hv]
  generalize roundingExponent p q = e at he hnear
  generalize roundedSignificand p q e = m at hnear
  have hpow : (0 : ℚ) < (2 : ℚ) ^ e := by positivity
  have h1 : (m : ℚ) * (2 : ℚ) ^ e - (p : ℚ) / q
      = ((m : ℚ) - (p : ℚ) / q / (2 : ℚ) ^ e) * (2 : ℚ) ^ e := by
    field_simp
    ring
  rw [h1, abs_mul, abs_of_pos hpow]
  have h2 : (2 : ℚ) ^ e ≤ (2 : ℚ) ^ (k - 53) :=
    zpow_le_zpow_right₀ (by norm_num) he
  have h3 : (2 : ℚ) ^ (k - 53) = 2 * (2 : ℚ) ^ (k - 54) := by
    have : k - 53 = (k - 54) + 1 := by ring
    rw [this, zpow_add_one₀ (by norm_num : (2 : ℚ) ≠ 0)]
    ring
  have h4 : (0 : ℚ) < (2 : ℚ) ^ (k - 54) := by positivity
  calc |(m : ℚ) - (p : ℚ) / q / (2 : ℚ) ^ e| * (2 : ℚ) ^ e
      ≤ (1 / 2) * (2 : ℚ) ^ e := by
        exact mul_le_mul_of_nonneg_right hnear hpow.le
    _ ≤ (1 / 2) * (2 * (2 : ℚ) ^ (k - 54)) := by rw [← h3]; linarith
    _ = (2 : ℚ) ^ (k - 54) := by ring

theorem roundFrac_near (neg : Bool) (p q : Nat) (hq : 0 < q) (k : Int)
    (hk1 : -1021 ≤ k) (hk2 : k ≤ 1023) (hlt : (p : ℚ) / q < (2 : ℚ) ^ k) :
    Near (roundFrac neg p q) ((if neg then -1 else 1) * ((p : ℚ) / q)) ((2 : ℚ) ^ (k - 54)) := by
  have hpos : (0 : ℚ) ≤ (2 : ℚ) ^ (k - 54) := by positivity
  by_cases hp : p = 0
  · subst hp
    simp only [roundFrac, if_true, Near, JSNumber.isFinite, JSNumber.toRat, true_and]
    simpa using hpos
  · obtain ⟨m, e, hr, herr⟩ := roundPos_spec neg p q (Nat.pos_of_ne_zero hp) hq k hk1 hk2 hlt
    simp only [roundFrac, hp, if_false, hr, Near, JSNumber.isFinite, JSNumber.toRat, true_and]
    cases neg
    · simp only [Bool.false_eq_true, if_false, one_mul]
      exact herr
    · simp only [if_true]
      rw [show (-1 : ℚ) * (m : ℚ) * (2 : ℚ) ^ e - -1 * ((p : ℚ) / q)
          = -((m : ℚ) * (2 : ℚ) ^ e - (p : ℚ) / q) by ring, abs_neg]
      exact herr

theorem roundDyadic_near (neg : Bool) (p : Nat) (e : Int) (k : Int)
    (hk1 : -1021 ≤ k) (hk2 : k ≤ 1023) (hlt : (p : ℚ) * (2 : ℚ) ^ e < (2 : ℚ) ^ k) :
    Near (roundDyadic neg p e) ((if neg then -1 else 1) * ((p : ℚ) * (2 : ℚ) ^ e))
      ((2 : ℚ) ^ (k - 54)) := by
  have h := roundFrac_near neg (scale p 1 (-e)).1 (scale p 1 (-e)).2
    (scale_den_pos p 1 (-e) (by decide)) k hk1 hk2 (by rw [scale_one_val]; exact hlt)
  rw [scale_one_val] at h
  exact h

theorem toRat_fin (s : Bool) (m : Nat) (e : Int) :
    (JSNumber.fin s m e).toRat = (if s then -1 else 1) * ((m : ℚ) * (2 : ℚ) ^ e) := by
  simp only [JSNumber.toRat]
  ring

theorem abs_sign_mul (s : Bool) (r : ℚ) (hr : 0 ≤ r) :
    |(if s then (-1 : ℚ) else 1) * r| = r := by
  cases s
  · simp only [Bool.false_eq_true, if_false, one_mul]; exact abs_of_nonneg hr
  · simp only [if_true, neg_mul, one_mul, abs_neg]; exact abs_of_nonneg hr

theorem mul_near (x y : JSNumber) (hx : x.isFinite = true) (hy : y.isFinite = true) (k : Int)
    (hk1 : -1021 ≤ k) (hk2 : k ≤ 1023) (hlt : |x.toRat * y.toRat| < (2 : ℚ) ^ k) :
    Near (x * y) (x.toRat * y.toRat) ((2 : ℚ) ^ (k - 54)) := by
  cases x with
  | nan => simp [JSNumber.isFinite] at hx
  | inf s => simp [JSNumber.isFinite] at hx
  | fin s m e =>
    cases y with
    | nan => simp [JSNumber.isFinite] at hy
    | inf t => simp [JSNumber.isFinite] at hy
    | fin t n f =>
      have h20 : (2 : ℚ) ≠ 0 := by norm_num
      have hprod : (JSNumber.fin s m e).toRat * (JSNumber.fin t n f).toRat
          = (if xor s t then -1 else 1) * (((m * n : Nat) : ℚ) * (2 : ℚ) ^ (e + f)) := by
        rw [toRat_fin, toRat_fin, zpow_add₀ h20]
        push_cast
        cases s <;> cases t <;> simp <;> ring
      rw [hprod] at hlt ⊢
      rw [abs_sign_mul _ _ (by positivity)] at hlt
      exact roundDyadic_near (xor s t) (m * n) (e + f) k hk1 hk2 hlt

theorem div_near (x y : JSNumber) (hx : x.isFinite = true) (hy : y.isFinite = true)
    (hy0 : y.toRat ≠ 0) (k : Int)
    (hk1 : -1021 ≤ k) (hk2 : k ≤ 1023) (hlt : |x.toRat / y.toRat| < (2 : ℚ) ^ k) :
    Near (x / y) (x.toRat / y.toRat) ((2 : ℚ) ^ (k - 54)) := by
  cases x with
  | nan => simp [JSNumber.isFinite] at hx
  | inf s => simp [JSNumber.isFinite] at hx
  | fin s m e =>
    cases y with
    | nan => simp [JSNumber.isFinite] at hy
    | inf t => simp [JSNumber.isFinite] at hy
    | fin t n f =>
      have h20 : (2 : ℚ) ≠ 0 := by norm_num
      have hn : n ≠ 0 := by
        intro h
        apply hy0
        simp [JSNumber.toRat, h]
      have hn0 : 0 < n := Nat.pos_of_ne_zero hn
      have hn' : (n : ℚ) ≠ 0 := by exact_mod_cast hn
      have hv := scale_val m n (f - e) hn0
      have hquot : (JSNumber.fin s m e).toRat / (JSNumber.fin t n f).toRat
          = (if xor s t then -1 else 1) *
            (((scale m n (f - e)).1 : ℚ) / ((scale m n (f - e)).2 : ℚ)) := by
        rw [hv, toRat_fin, toRat_fin, zpow_sub₀ h20]
        have hf : (2 : ℚ) ^ f ≠ 0 := by positivity
        have he : (2 : ℚ) ^ e ≠ 0 := by positivity
        cases s <;> cases t <;> simp <;> field_simp
      rw [hquot] at hlt ⊢
      rw [abs_sign_mul _ _ (by positivity)] at hlt
      have := roundFrac_near (xor s t) (scale m n (f - e)).1 (scale m n (f - e)).2
        (scale_den_pos m n (f - e) hn0) k hk1 hk2 hlt
      show Near (JSNumber.div (JSNumber.fin s m e) (JSNumber.fin t n f)) _ _
      simp only [JSNumber.div, hn, if_false]
      exact this

theorem align_val (s : Bool) (m : Nat) (e g : Int) (h : g ≤ e) :
    ((((if s then -1 else 1) * ((m * 2 ^ (e - g).toNat : Nat) : Int) : Int) : ℚ)) * (2 : ℚ) ^ g
      = (JSNumber.fin s m e).toRat := by
  have h20 : (2 : ℚ) ≠ 0 := by norm_num
  have hnat : (((e - g).toNat : Nat) : Int) = e - g := Int.toNat_of_nonneg (by omega)
  have hpow : (2 : ℚ) ^ (e - g).toNat * (2 : ℚ) ^ g = (2 : ℚ) ^ e := by
    rw [← zpow_natCast, hnat, ← zpow_add₀ h20]
    congr 1
    ring
  rw [toRat_fin]
  push_cast
  cases s
  · simp only [Bool.false_eq_true, if_false, Int.cast_one, one_mul]
    rw [mul_assoc, hpow]
  · simp only [if_true, Int.cast_neg, Int.cast_one, neg_mul, one_mul]
    rw [mul_assoc, hpow]

theorem add_near (x y : JSNumber) (hx : x.isFinite = true) (hy : y.isFinite = true) (k : Int)
    (hk1 : -1021 ≤ k) (hk2 : k ≤ 1023) (hlt : |x.toRat + y.toRat| < (2 : ℚ) ^ k) :
    Near (x + y) (x.toRat + y.toRat) ((2 : ℚ) ^ (k - 54)) := by
  cases x with
  | nan => simp [JSNumber.isFinite] at hx
  | inf s => simp [JSNumber.isFinite] at hx
  | fin s m e =>
    cases y with
    | nan => simp [JSNumber.isFinite] at hy
    | inf t => simp [JSNumber.isFinite] at hy
    | fin t n f =>
      show Near (JSNumber.add (JSNumber.fin s m e) (JSNumber.fin t n f)) _ _
      have hg1 : (if e ≤ f then e else f) ≤ e := by split <;> omega
      have hg2 : (if e ≤ f then e else f) ≤ f := by split <;> omega
      have ha := align_val s m e _ hg1
      have hb := align_val t n f _ hg2
      simp only [JSNumber.add]
      generalize (if e ≤ f then e else f) = g at ha hb
      generalize ((if s then -1 else 1) * ((m * 2 ^ (e - g).toNat : Nat) : Int) : Int) = a at ha
      generalize ((if t then -1 else 1) * ((n * 2 ^ (f - g).toNat : Nat) : Int) : Int) = b at hb
      have hsum : (JSNumber.fin s m e).toRat + (JSNumber.fin t n f).toRat
          = ((a + b : Int) : ℚ) * (2 : ℚ) ^ g := by
        rw [← ha, ← hb]
        push_cast
        ring
      rw [hsum] at hlt ⊢
      generalize a + b = c at hlt ⊢
      have hpow : (0 : ℚ) < (2 : ℚ) ^ g := by positivity
      by_cases hc : c = 0
      · subst hc
        simp only [if_true, Near, JSNumber.isFinite, JSNumber.toRat, true_and]
        simp only [Nat.cast_zero, mul_zero, zero_mul, Int.cast_zero, sub_zero, abs_zero]
        positivity
      · simp only [hc, if_false]
        have hcabs : ((c.natAbs : Nat) : ℚ) = |(c : ℚ)| := by
          rw [Nat.cast_natAbs, Int.cast_abs]
        rw [abs_mul, abs_of_pos hpow, ← hcabs] at hlt
        have h := roundDyadic_near (decide (c < 0)) c.natAbs g k hk1 hk2 hlt
        have hsign : (if decide (c < 0) = true then (-1 : ℚ) else 1) *
            (((c.natAbs : Nat) : ℚ) * (2 : ℚ) ^ g) = (c : ℚ) * (2 : ℚ) ^ g := by
          rw [hcabs]
          by_cases hneg : c < 0
          · have : (c : ℚ) < 0 := by exact_mod_cast hneg
            simp only [hneg, decide_True, if_true, abs_of_neg this]
            ring
          · have : (0 : ℚ) ≤ (c : ℚ) := by exact_mod_cast (not_lt.mp hneg)
            simp only [hneg, decide_False, Bool.false_eq_true, if_false, abs_of_nonneg this]
            ring
        rw [hsign] at h
        exact h

theorem toRat_neg (y : JSNumber) : (JSNumber.neg y).toRat = -y.toRat := by
  cases y with
  | nan => simp [JSNumber.neg, JSNumber.toRat]
  | inf s => simp [JSNumber.neg, JSNumber.toRat]
  | fin s m e => cases s <;> simp [JSNumber.neg, JSNumber.toRat]

theorem isFinite_neg (y : JSNumber) : (JSNumber.neg y).isFinite = y.isFinite := by
  cases y <;> rfl

theorem sub_near (x y : JSNumber) (hx : x.isFinite = true) (hy : y.isFinite = true) (k : Int)
    (hk1 : -1021 ≤ k) (hk2 : k ≤ 1023) (hlt : |x.toRat - y.toRat| < (2 : ℚ) ^ k) :
    Near (x - y) (x.toRat - y.toRat) ((2 : ℚ) ^ (k - 54)) := by
  have h := add_near x (JSNumber.neg y) hx (by rw [isFinite_neg]; exact hy) k hk1 hk2
    (by rw [toRat_neg, ← sub_eq_add_neg]; exact hlt)
  rw [toRat_neg, ← sub_eq_add_neg] at h
  exact h

theorem near_bounds {x : JSNumber} {r ε : ℚ} (h : Near x r ε) :
    x.isFinite = true ∧ r - ε ≤ x.toRat ∧ x.toRat ≤ r + ε := by
  obtain ⟨hf, ha⟩ := h
  rw [abs_le] at ha
  exact ⟨hf, by linarith, by linarith⟩

theorem const_five : (5 : JSNumber).isFinite = true ∧ (5 : JSNumber).toRat = 5 := by
  have h : (5 : JSNumber) = JSNumber.fin false 5629499534213120 (-50) := by decide
  rw [h]
  refine ⟨rfl, ?_⟩
  norm_num [JSNumber.toRat]

theorem const_nine : (9 : JSNumber).isFinite = true ∧ (9 : JSNumber).toRat = 9 := by
  have h : (9 : JSNumber) = JSNumber.fin false 5066549580791808 (-49) := by decide
  rw [h]
  refine ⟨rfl, ?_⟩
  norm_num [JSNumber.toRat]

theorem const_thirtyTwo : (32 : JSNumber).isFinite = true ∧ (32 : JSNumber).toRat = 32 := by
  have h : (32 : JSNumber) = JSNumber.fin false 4503599627370496 (-47) := by decide
  rw [h]
  refine ⟨rfl, ?_⟩
  norm_num [JSNumber.toRat]

/-- The conversion of `DatosCIntentHandler` followed by that of
`DatosFIntentHandler`, in binary64 arithmetic, stays within `0.01` of a
finite start value of at most `10 ^ 12` in absolute value. -/
theorem cent_round_trip (c : JSNumber) (hc : c.isFinite = true) (hb : |c.toRat| ≤ 10 ^ 12) :
    Near (((c * 9 / 5 + 32) - 32) * 5 / 9) c.toRat (1 / 100) := by
  obtain ⟨f5, v5⟩ := const_five
  obtain ⟨f9, v9⟩ := const_nine
  obtain ⟨f32, v32⟩ := const_thirtyTwo
  have p44 : (2 : ℚ) ^ (44 : Int) = 17592186044416 := by norm_num
  have p41 : (2 : ℚ) ^ (41 : Int) = 2199023255552 := by norm_num
  have q44 : (2 : ℚ) ^ ((44 : Int) - 54) = 1 / 1024 := by norm_num
  have q41 : (2 : ℚ) ^ ((41 : Int) - 54) = 1 / 8192 := by norm_num
  obtain ⟨hlo, hhi⟩ := abs_le.mp hb
  -- cent * 9
  obtain ⟨g1, lo1, hi1⟩ := near_bounds (mul_near c 9 hc f9 44 (by norm_num) (by norm_num)
    (by rw [v9, p44, abs_lt]; constructor <;> linarith))
  rw [v9, q44] at lo1 hi1
  -- / 5
  obtain ⟨g2, lo2, hi2⟩ := near_bounds (div_near (c * 9) 5 g1 f5 (by rw [v5]; norm_num) 41
    (by norm_num) (by norm_num)
    (by rw [v5, p41, abs_lt]; constructor <;> linarith))
  rw [v5, q41] at lo2 hi2
  -- + 32
  obtain ⟨g3, lo3, hi3⟩ := near_bounds (add_near (c * 9 / 5) 32 g2 f32 41
    (by norm_num) (by norm_num)
    (by rw [v32, p41, abs_lt]; constructor <;> linarith))
  rw [v32, q41] at lo3 hi3
  -- - 32
  obtain ⟨g4, lo4, hi4⟩ := near_bounds (sub_near (c * 9 / 5 + 32) 32 g3 f32 41
    (by norm_num) (by norm_num)
    (by rw [v32, p41, abs_lt]; constructor <;> linarith))
  rw [v32, q41] at lo4 hi4
  -- * 5
  obtain ⟨g5, lo5, hi5⟩ := near_bounds (mul_near (c * 9 / 5 + 32 - 32) 5 g4 f5 44
    (by norm_num) (by norm_num)
    (by rw [v5, p44, abs_lt]; constructor <;> linarith))
  rw [v5, q44] at lo5 hi5
  -- / 9
  obtain ⟨g6, lo6, hi6⟩ := near_bounds (div_near ((c * 9 / 5 + 32 - 32) * 5) 9 g5 f9
    (by rw [v9]; norm_num) 41 (by norm_num) (by norm_num)
    (by rw [v9, p41, abs_lt]; constructor <;> linarith))
  rw [v9, q41] at lo6 hi6
  refine ⟨g6, ?_⟩
  rw [abs_le]
  constructor <;> linarith

/-- The conversion of `DatosFIntentHandler` followed by that of
`DatosCIntentHandler`, in binary64 arithmetic, stays within `0.01` of a
finite start value of at most `10 ^ 12` in absolute value. -/
theorem faren_round_trip (f : JSNumber) (hf : f.isFinite = true) (hb : |f.toRat| ≤ 10 ^ 12) :
    Near ((f - 32) * 5 / 9 * 9 / 5 + 32) f.toRat (1 / 100) := by
  obtain ⟨f5, v5⟩ := const_five
  obtain ⟨f9, v9⟩ := const_nine
  obtain ⟨f32, v32⟩ := const_thirtyTwo
  have p44 : (2 : ℚ) ^ (44 : Int) = 17592186044416 := by norm_num
  have p41 : (2 : ℚ) ^ (41 : Int) = 2199023255552 := by norm_num
  have q44 : (2 : ℚ) ^ ((44 : Int) - 54) = 1 / 1024 := by norm_num
  have q41 : (2 : ℚ) ^ ((41 : Int) - 54) = 1 / 8192 := by norm_num
  obtain ⟨hlo, hhi⟩ := abs_le.mp hb
  obtain ⟨g1, lo1, hi1⟩ := near_bounds (sub_near f 32 hf f32 41 (by norm_num) (by norm_num)
    (by rw [v32, p41, abs_lt]; constructor <;> linarith))
  rw [v32, q41] at lo1 hi1
  obtain ⟨g2, lo2, hi2⟩ := near_bounds (mul_near (f - 32) 5 g1 f5 44
    (by norm_num) (by norm_num)
    (by rw [v5, p44, abs_lt]; constructor <;> linarith))
  rw [v5, q44] at lo2 hi2
  obtain ⟨g3, lo3, hi3⟩ := near_bounds (div_near ((f - 32) * 5) 9 g2 f9
    (by rw [v9]; norm_num) 41 (by norm_num) (by norm_num)
    (by rw [v9, p41, abs_lt]; constructor <;> linarith))
  rw [v9, q41] at lo3 hi3
  obtain ⟨g4, lo4, hi4⟩ := near_bounds (mul_near ((f - 32) * 5 / 9) 9 g3 f9 44
    (by norm_num) (by norm_num)
    (by rw [v9, p44, abs_lt]; constructor <;> linarith))
  rw [v9, q44] at lo4 hi4
  obtain ⟨g5, lo5, hi5⟩ := near_bounds (div_near ((f - 32) * 5 / 9 * 9) 5 g4 f5
    (by rw [v5]; norm_num) 41 (by norm_num) (by norm_num)
    (by rw [v5, p41, abs_lt]; constructor <;> linarith))
  rw [v5, q41] at lo5 hi5
  obtain ⟨g6, lo6, hi6⟩ := near_bounds (add_near ((f - 32) * 5 / 9 * 9 / 5) 32 g5 f32 41
    (by norm_num) (by norm_num)
    (by rw [v32, p41, abs_lt]; constructor <;> linarith))
  rw [v32, q41] at lo6 hi6
  refine ⟨g6, ?_⟩
  rw [abs_le]
  constructor <;> linarith

set_option exponentiation.threshold 2000 in
set_option maxRecDepth 100000 in
/-- C5, as stated, fails in the arithmetic of the code: from
`c = 1000000000000003` the round trip gives `1000000000000003.125`, and from
`f = 100000000000000.02` (the Number `100000000000000.015625`) it gives
`100000000000000`; from `1e308` the first multiplication overflows and the
round trip gives `Infinity`. -/
theorem C5_counterexample :
    parseFloat (JSValue.string "1000000000000003") = JSNumber.fin false 8000000000000024 (-3) ∧
    ((parseFloat (JSValue.string "1000000000000003") * 9 / 5 + 32) - 32) * 5 / 9
      = JSNumber.fin false 8000000000000025 (-3) ∧
    ¬ CentRoundTripClaim (parseFloat (JSValue.string "1000000000000003")) ∧
    parseFloat (JSValue.string "100000000000000.02")
      = JSNumber.fin false 6400000000000001 (-6) ∧
    (parseFloat (JSValue.string "100000000000000.02") - 32) * 5 / 9 * 9 / 5 + 32
      = JSNumber.fin false 6400000000000000 (-6) ∧
    ¬ FarenRoundTripClaim (parseFloat (JSValue.string "100000000000000.02")) ∧
    (parseFloat (JSValue.string "1e308")).isFinite = true ∧
    ((parseFloat (JSValue.string "1e308") * 9 / 5 + 32) - 32) * 5 / 9 = JSNumber.inf false ∧
    ¬ CentRoundTripClaim (parseFloat (JSValue.string "1e308")) := by
  have h1 : parseFloat (JSValue.string "1000000000000003")
      = JSNumber.fin false 8000000000000024 (-3) := by decide
  have h2 : ((parseFloat (JSValue.string "1000000000000003") * 9 / 5 + 32) - 32) * 5 / 9
      = JSNumber.fin false 8000000000000025 (-3) := by decide
  have h3 : parseFloat (JSValue.string "100000000000000.02")
      = JSNumber.fin false 6400000000000001 (-6) := by decide
  have h4 : (parseFloat (JSValue.string "100000000000000.02") - 32) * 5 / 9 * 9 / 5 + 32
      = JSNumber.fin false 6400000000000000 (-6) := by decide
  have h5 : ((parseFloat (JSValue.string "1e308") * 9 / 5 + 32) - 32) * 5 / 9
      = JSNumber.inf false := by decide
  refine ⟨h1, h2, ?_, h3, h4, ?_, by decide, h5, ?_⟩
  · intro h
    have h' := h.2
    rw [h2, h1] at h'
    norm_num [JSNumber.toRat, abs_le] at h'
  · intro h
    have h' := h.2
    rw [h4, h3] at h'
    norm_num [JSNumber.toRat, abs_le] at h'
  · intro h
    have h' := h.1
    rw [h5] at h'
    exact absurd h' (by decide)

/-- C5, amended: in the binary64 arithmetic of the code, for every finite
Number `c` of at most `10 ^ 12` in absolute value, `c * 9 / 5 + 32` followed by
`(f - 32) * 5 / 9` gives a finite Number within `0.01` of `c`, and for every
finite `f` of at most `10 ^ 12` in absolute value, `(f - 32) * 5 / 9` followed
by `x * 9 / 5 + 32` gives a finite Number within `0.01` of `f`; over the
rationals the two formulas are mutual inverses. -/
theorem C5_round_trip_within_hundredth :
    (∀ c : JSNumber, c.isFinite = true → |c.toRat| ≤ 10 ^ 12 →
      (((c * 9 / 5 + 32) - 32) * 5 / 9).isFinite = true ∧
      |(((c * 9 / 5 + 32) - 32) * 5 / 9).toRat - c.toRat| ≤ 1 / 100) ∧
    (∀ f : JSNumber, f.isFinite = true → |f.toRat| ≤ 10 ^ 12 →
      ((f - 32) * 5 / 9 * 9 / 5 + 32).isFinite = true ∧
      |((f - 32) * 5 / 9 * 9 / 5 + 32).toRat - f.toRat| ≤ 1 / 100) ∧
    (∀ q : ℚ, ((q * 9 / 5 + 32) - 32) * 5 / 9 = q ∧ (q - 32) * 5 / 9 * 9 / 5 + 32 = q) := by
  refine ⟨fun c hc hb => cent_round_trip c hc hb, fun f hf hb => faren_round_trip f hf hb, ?_⟩
  intro q
  constructor <;> ring

set_option maxRecDepth 100000 in
theorem C5_round_trip_within_hundredth_witness :
    (((parseFloat (JSValue.string "37.5") * 9 / 5 + 32) - 32) * 5 / 9).isFinite = true ∧
    |(((parseFloat (JSValue.string "37.5") * 9 / 5 + 32) - 32) * 5 / 9).toRat
      - (parseFloat (JSValue.string "37.5")).toRat| ≤ 1 / 100 :=
  C5_round_trip_within_hundredth.1 (parseFloat (JSValue.string "37.5")) (by decide)
    (by
      rw [show parseFloat (JSValue.string "37.5")
          = JSNumber.fin false 5277655813324800 (-47) from by decide]
      norm_num [JSNumber.toRat, abs_le])

/-! ## Checks of the Number model against known values -/

theorem digitChar_value (d : Nat) (h : d < 10) : (digitChar d).toNat - 48 = d := by
  interval_cases d <;> rfl

theorem digitsValue_append_singleton (ds : List Char) (c : Char) :
    digitsValue (ds ++ [c]) = 10 * digitsValue ds + (c.toNat - 48) := by
  simp [digitsValue, List.foldl_append]

/-- The digits of `decDigits n` denote `n`. -/
theorem digitsValue_decDigits (n : Nat) : digitsValue (decDigits n) = n := by
  induction n using Nat.strong_induction_on with
  | _ n ih =>
    by_cases h : n < 10
    · rw [decDigits_lt n h]
      simp [digitsValue, digitChar_value n h]
    · rw [decDigits_ge n (by omega), digitsValue_append_singleton, ih (n / 10) (by omega),
        digitChar_value _ (Nat.mod_lt _ (by decide))]
      omega

set_option maxRecDepth 100000 in
/-- The sum `0.1 + 0.2` prints as `0.30000000000000004`, the quotient `1 / 3` as
`0.3333333333333333`, and `1e21` in exponent form. -/
theorem toString_known_values :
    (parseFloat (JSValue.string "0.1") + parseFloat (JSValue.string "0.2")).toString
      = "0.30000000000000004".data ∧
    ((1 : JSNumber) / 3).toString = "0.3333333333333333".data ∧
    (parseFloat (JSValue.string "1000000000000000000000")).toString = "1e+21".data ∧
    (parseFloat (JSValue.string "0.000001")).toString = "0.000001".data ∧
    (parseFloat (JSValue.string "0.0000001")).toString = "1e-7".data ∧
    (parseFloat (JSValue.string "-1.50")).toString = "-1.5".data := by
  decide

set_option maxRecDepth 100000 in
/-- The method `toFixed(2)` works on the binary value: `1.005` is below the
midpoint and gives `1.00`, `8.345` is above it and gives `8.35`; a negative
value that rounds to zero keeps its sign. -/
theorem toFixed_known_values :
    (parseFloat (JSValue.string "1.005")).toFixed 2 = "1.00".data ∧
    (parseFloat (JSValue.string "8.345")).toFixed 2 = "8.35".data ∧
    (parseFloat (JSValue.string "-0.001")).toFixed 2 = "-0.00".data ∧
    (parseFloat (JSValue.string "999.995")).toFixed 2 = "1000.00".data ∧
    (parseFloat (JSValue.string "-40")).toFixed 2 = "-40.00".data := by
  decide

set_option maxRecDepth 100000 in
/-- The function `parseFloat` reads the longest numeric prefix after leading
white space, and gives `NaN` when there is none. -/
theorem parseFloat_known_values :
    parseFloat (JSValue.string "  3.5 grados") = parseFloat (JSValue.string "3.5") ∧
    parseFloat (JSValue.string ".5") = parseFloat (JSValue.string "0.5") ∧
    parseFloat (JSValue.string "1e") = 1 ∧
    parseFloat (JSValue.string "?") = JSNumber.nan ∧
    parseFloat (JSValue.string "") = JSNumber.nan ∧
    parseFloat (JSValue.string "Infinity") = JSNumber.inf false := by
  decide

end ConversorTem
